import Mathlib

/-!
Shallow embedding of the order-fulfillment core of the nest-ecommerce
backend (NestJS + TypeORM), covering:

* `OrdersService.create`  (checkout transaction, orders.service.ts)
* `OrdersService.cancel`  (cancellation workflow, orders.service.ts)
* `OrdersService.updateStatus` (status transitions, orders.service.ts)
* `canTransition` / `ORDER_STATUS_TRANSITIONS` (order-status utility)
* `CartService.addToCart` (cart.service.ts)
* `CouponsService.applyCoupon` / `incrementUsage` (coupons service)

Conventions of the embedding:
* ids (users, products, variants, orders) are `Nat`;
* monetary values are exact rationals `ℚ`; the JS expression
  `Math.round(x * 100) / 100` is embedded as `round2`
  (JS `Math.round x = ⌊x + 0.5⌋`);
* timestamps (`new Date()`) are `Nat` instants passed in as `now`;
* each TypeORM repository is a `List` field of `State`; `findOne`
  returns the first matching element; `increment`/`decrement` update
  the named column arithmetically with no range check, as TypeORM does;
* a database transaction body is a function `State → Except Err …`;
  the service wraps it and, mirroring
  `try { …; commitTransaction } catch { rollbackTransaction; throw }`,
  returns the caller's original state whenever the body errors;
* fields of entities that no verified operation reads or writes
  (addresses, images, descriptions, audit columns …) are omitted.
-/

deriving instance DecidableEq for Except

namespace Ecom

/-- JS `Math.round (x * 100) / 100`: round to 2 decimals, halves up. -/
def round2 (x : ℚ) : ℚ := ((x * 100 + 1 / 2).floor : ℚ) / 100

/-- `ProductStatus` enum (product.entity.ts). -/
inductive ProductStatus
  | draft
  | active
  | inactive
  | archived
deriving DecidableEq, Repr

/-- `products` table (product.entity.ts), claim-relevant columns. -/
structure Product where
  id : Nat
  name : String
  sku : String
  price : ℚ
  salePrice : Option ℚ
  stock : Int
  soldCount : Int
  status : ProductStatus
deriving DecidableEq, Repr

/-- `product_variants` table (product-variant.entity.ts). -/
structure ProductVariant where
  id : Nat
  productId : Nat
  sku : String
  name : String
  price : ℚ
  salePrice : Option ℚ
  stock : Int
  active : Bool
deriving DecidableEq, Repr

/-- `cart_items` table (cart-item.entity.ts). -/
structure CartItem where
  userId : Nat
  productId : Nat
  variantId : Option Nat
  quantity : Nat
deriving DecidableEq, Repr

/-- `OrderStatus` enum (order.entity.ts). -/
inductive OrderStatus
  | pending
  | confirmed
  | processing
  | shipped
  | delivered
  | cancelled
  | refunded
  | returned
deriving DecidableEq, Repr

/-- `orders` table (order.entity.ts), claim-relevant columns. -/
structure Order where
  id : Nat
  orderNumber : Nat
  userId : Nat
  status : OrderStatus
  subtotal : ℚ
  tax : ℚ
  shippingCost : ℚ
  discount : ℚ
  total : ℚ
  trackingNumber : Option String := none
  shippedAt : Option Nat := none
  deliveredAt : Option Nat := none
  cancelledAt : Option Nat := none
  cancellationReason : Option String := none
deriving DecidableEq, Repr

/-- `order_items` table (order-item.entity.ts). -/
structure OrderItem where
  orderId : Nat
  productId : Nat
  variantId : Option Nat
  name : String
  sku : String
  unitPrice : ℚ
  quantity : Nat
  total : ℚ
deriving DecidableEq, Repr

/-- `PaymentStatus` enum (payment.entity.ts). -/
inductive PaymentStatus
  | pending
  | processing
  | completed
  | failed
  | refunded
  | cancelled
deriving DecidableEq, Repr

/-- `payments` table (payment.entity.ts), claim-relevant columns. -/
structure Payment where
  orderId : Nat
  amount : ℚ
  paymentStatus : PaymentStatus
  refundedAt : Option Nat := none
  refundReason : Option String := none
deriving DecidableEq, Repr

/-- `CouponStatus` enum (coupon.entity.ts). -/
inductive CouponStatus
  | active
  | inactive
  | expired
deriving DecidableEq, Repr

/-- `DiscountType` enum (coupon.entity.ts). -/
inductive DiscountType
  | percentage
  | fixedAmount
deriving DecidableEq, Repr

/-- `coupons` table (coupon.entity.ts), claim-relevant columns. -/
structure Coupon where
  id : Nat
  code : String
  discountType : DiscountType
  discountValue : ℚ
  minOrderAmount : ℚ
  maxUses : Int
  usedCount : Int
  maxUsesPerUser : Int
  validFrom : Option Nat := none
  validUntil : Option Nat := none
  status : CouponStatus
  freeShipping : Bool := false
deriving DecidableEq, Repr

/-- Configuration values read through `ConfigService` in
`OrdersService.create`, with the source's defaults. -/
structure Config where
  taxRate : ℚ := 8 / 100
  shippingCost : ℚ := 10
  freeShippingThreshold : ℚ := 100
deriving DecidableEq, Repr

/-- The durable store: one list per TypeORM repository used by the
verified operations, plus a counter that stands in for generated
order ids / order numbers. -/
structure State where
  products : List Product
  variants : List ProductVariant
  cartItems : List CartItem
  orders : List Order
  orderItems : List OrderItem
  payments : List Payment
  coupons : List Coupon
  nextOrderId : Nat
deriving DecidableEq, Repr

/-- Distinct throw sites of the embedded services.  The source throws
`BadRequestException` / `NotFoundException` with message strings; the
embedding gives each throw site its own constructor. -/
inductive Err
  | cartEmpty
  | productNotAvailable (productId : Nat)
  | insufficientStock (available : Int)
  | productNotFound
  | variantNotFound
  | orderNotFound
  | orderNotCancellable
  | invalidTransition (fromStatus toStatus : OrderStatus)
  | storageFailure
deriving DecidableEq, Repr

/-- Repository lookup: first product with the given id. -/
def State.findProduct (s : State) (pid : Nat) : Option Product :=
  s.products.find? (fun p => p.id == pid)

/-- Repository lookup: first variant with the given id. -/
def State.findVariant (s : State) (vid : Nat) : Option ProductVariant :=
  s.variants.find? (fun v => v.id == vid)

/-- The `variant` relation of a cart line (loaded by
`relations: ["product", "variant"]`): present iff the line has a
`variantId` that resolves to a variant row. -/
def State.cartVariant (s : State) (ci : CartItem) : Option ProductVariant :=
  ci.variantId.bind s.findVariant

/-- `manager.decrement(Product, { id }, "stock", q)`: plain arithmetic
update, no range check. -/
def State.decProductStock (s : State) (pid : Nat) (q : Nat) : State :=
  { s with products :=
      s.products.map (fun p => if p.id = pid then { p with stock := p.stock - q } else p) }

/-- `manager.increment(Product, { id }, "stock", q)`. -/
def State.incProductStock (s : State) (pid : Nat) (q : Nat) : State :=
  { s with products :=
      s.products.map (fun p => if p.id = pid then { p with stock := p.stock + q } else p) }

/-- `manager.increment(Product, { id }, "soldCount", q)`. -/
def State.incProductSold (s : State) (pid : Nat) (q : Nat) : State :=
  { s with products :=
      s.products.map (fun p => if p.id = pid then { p with soldCount := p.soldCount + q } else p) }

/-- `manager.decrement(Product, { id }, "soldCount", q)`. -/
def State.decProductSold (s : State) (pid : Nat) (q : Nat) : State :=
  { s with products :=
      s.products.map (fun p => if p.id = pid then { p with soldCount := p.soldCount - q } else p) }

/-- `manager.decrement(ProductVariant, { id }, "stock", q)`. -/
def State.decVariantStock (s : State) (vid : Nat) (q : Nat) : State :=
  { s with variants :=
      s.variants.map (fun v => if v.id = vid then { v with stock := v.stock - q } else v) }

/-- `manager.increment(ProductVariant, { id }, "stock", q)`. -/
def State.incVariantStock (s : State) (vid : Nat) (q : Nat) : State :=
  { s with variants :=
      s.variants.map (fun v => if v.id = vid then { v with stock := v.stock + q } else v) }

/-!  ## Order status transition table  (order-status utility file)  -/

/-- `ORDER_STATUS_TRANSITIONS`: the record mapping each status to its
legal successor statuses. -/
def ORDER_STATUS_TRANSITIONS : OrderStatus → List OrderStatus
  | .pending => [.confirmed, .cancelled]
  | .confirmed => [.processing, .cancelled]
  | .processing => [.shipped, .cancelled]
  | .shipped => [.delivered]
  | .delivered => [.returned]
  | .cancelled => []
  | .refunded => []
  | .returned => []

/-- `canTransition(currentStatus, newStatus)`:
`allowedTransitions.includes(newStatus) || currentStatus === newStatus`. -/
def canTransition (currentStatus newStatus : OrderStatus) : Bool :=
  (ORDER_STATUS_TRANSITIONS currentStatus).contains newStatus
    || currentStatus == newStatus

/-- `getValidTransitions(currentStatus)` from the same utility file. -/
def getValidTransitions (currentStatus : OrderStatus) : List OrderStatus :=
  ORDER_STATUS_TRANSITIONS currentStatus

/-- `isFinalStatus(status)`: whether the transition list is empty. -/
def isFinalStatus (status : OrderStatus) : Bool :=
  (ORDER_STATUS_TRANSITIONS status).length == 0

/-!  ## OrdersService.findOne / updateStatus  -/

/-- `OrdersService.findOne(orderId, userId?)`: first order with the id,
additionally filtered by owner when a `userId` is given. -/
def State.findOrder (s : State) (orderId : Nat) (userId : Option Nat) : Option Order :=
  s.orders.find? (fun o =>
    o.id == orderId && (match userId with | some u => o.userId == u | none => true))

/-- `repository.save(order)` on an existing row: replace by id. -/
def State.saveOrder (s : State) (o : Order) : State :=
  { s with orders := s.orders.map (fun x => if x.id = o.id then o else x) }

/-- The `statusTransitions` record defined inline in
`OrdersService.updateStatus` (identical to `ORDER_STATUS_TRANSITIONS`). -/
def OrdersService.statusTransitions : OrderStatus → List OrderStatus
  | .pending => [.confirmed, .cancelled]
  | .confirmed => [.processing, .cancelled]
  | .processing => [.shipped, .cancelled]
  | .shipped => [.delivered]
  | .delivered => [.returned]
  | .cancelled => []
  | .refunded => []
  | .returned => []

/-- `OrdersService.updateStatus(orderId, status, additionalData?)`.
`now` stands for `new Date()`; the two `Option String` arguments are
`additionalData?.trackingNumber` and `additionalData?.notes`
(the latter is written to a column this embedding omits, so it is
accepted and ignored). -/
def OrdersService.updateStatus (now : Nat) (orderId : Nat) (status : OrderStatus)
    (trackingNumber : Option String) (s : State) : Except Err Order × State :=
  match s.findOrder orderId none with
  | none => (.error .orderNotFound, s)
  | some order =>
    if (OrdersService.statusTransitions order.status).contains status = false
        ∧ order.status ≠ status then
      (.error (.invalidTransition order.status status), s)
    else
      let order1 := { order with status := status }
      let order2 := match trackingNumber with
        | some t => { order1 with trackingNumber := some t }
        | none => order1
      let order3 := if status = .shipped then { order2 with shippedAt := some now } else order2
      let order4 := if status = .delivered then { order3 with deliveredAt := some now } else order3
      (.ok order4, s.saveOrder order4)

/-!  ## CartService.addToCart  -/

/-- `AddToCartDto` (add-to-cart.dto.ts): product, optional variant,
quantity. -/
structure AddToCartDto where
  productId : Nat
  variantId : Option Nat := none
  quantity : Nat
deriving DecidableEq, Repr

/-- `cartItemRepository.save(existingItem)` after
`existingItem.quantity = newQuantity`: replace the first line with the
item's key (the row `findOne` returned) by the updated quantity. -/
def updateFirstCartLine (uid pid : Nat) (vid : Option Nat) (q : Nat) :
    List CartItem → List CartItem
  | [] => []
  | ci :: rest =>
    if ci.userId == uid && ci.productId == pid && ci.variantId == vid
    then { ci with quantity := q } :: rest
    else ci :: updateFirstCartLine uid pid vid q rest

/-- The variant-validation block of `CartService.addToCart`
(cart.service.ts lines 89–99): when a `variantId` is supplied, it must
resolve to an active variant of the requested product. -/
def CartService.checkVariant (s : State) (dto : AddToCartDto) :
    Except Err (Option ProductVariant) :=
  match dto.variantId with
  | none => .ok none
  | some vid =>
    match s.variants.find? (fun v => v.id == vid && v.productId == dto.productId) with
    | none => .error .variantNotFound
    | some v => if v.active = false then .error .variantNotFound else .ok (some v)

/-- `CartService.addToCart(userId, addToCartDto)` (cart.service.ts
lines 75–147). -/
def CartService.addToCart (userId : Nat) (dto : AddToCartDto) (s : State) :
    Except Err CartItem × State :=
  match s.findProduct dto.productId with
  | none => (.error .productNotFound, s)
  | some product =>
    if product.status ≠ .active then (.error (.productNotAvailable dto.productId), s)
    else
      match CartService.checkVariant s dto with
      | .error e => (.error e, s)
      | .ok variant =>
        let availableStock : Int := (variant.map (·.stock)).getD product.stock
        if availableStock < (dto.quantity : Int) then
          (.error (.insufficientStock availableStock), s)
        else
          match s.cartItems.find? (fun ci =>
              ci.userId == userId && ci.productId == dto.productId
                && ci.variantId == dto.variantId) with
          | some existingItem =>
            let newQuantity := existingItem.quantity + dto.quantity
            if availableStock < (newQuantity : Int) then
              (.error (.insufficientStock availableStock), s)
            else
              (.ok { existingItem with quantity := newQuantity },
               { s with cartItems :=
                  updateFirstCartLine userId dto.productId dto.variantId newQuantity s.cartItems })
          | none =>
            let cartItem : CartItem :=
              { userId := userId
                productId := dto.productId
                variantId := dto.variantId
                quantity := dto.quantity }
            (.ok cartItem, { s with cartItems := s.cartItems ++ [cartItem] })

/-!  ## OrdersService.create (checkout transaction)  -/

/-- `CreateOrderDto`: only the field the verified claims touch
(addresses, payment method and notes are omitted). -/
structure CreateOrderDto where
  couponCode : Option String := none
deriving DecidableEq, Repr

/-- `OrdersService.applyCoupon(couponCode, subtotal)`
(orders.service.ts lines 519–526): the body is
`// TODO: Implement coupon logic — For now, return 0`. -/
def OrdersService.applyCoupon (_couponCode : String) (_subtotal : ℚ) : ℚ := 0

/-- The validation-and-draft half of one iteration of the
`for (const cartItem of cartItems)` loop of `OrdersService.create`
(lines 66–103): availability check, unit price selection, stock
check, and the drafted order item (its `orderId` is filled in after
the order row is saved).  All reads are against the relations loaded
with the cart, i.e. the state `s0` at the start of the transaction. -/
def lineCheck (s0 : State) (ci : CartItem) : Except Err OrderItem :=
  match s0.findProduct ci.productId with
  | none => .error (.productNotAvailable ci.productId)
  | some product =>
    if product.status ≠ .active then .error (.productNotAvailable ci.productId)
    else
      let variant := s0.cartVariant ci
      let price := (variant.map (·.price)).getD product.price
      let available : Int := (variant.map (·.stock)).getD product.stock
      if (ci.quantity : Int) > available then .error (.insufficientStock available)
      else .ok
        { orderId := 0
          productId := ci.productId
          variantId := ci.variantId
          name := product.name
          sku := (variant.map (·.sku)).getD product.sku
          unitPrice := price
          quantity := ci.quantity
          total := price * (ci.quantity : ℚ) }

/-- The write half of one loop iteration (lines 104–127):
`manager.decrement` on the variant's stock when the loaded variant
relation is present, else on the product's stock, followed by
`manager.increment` of the product's sold count. -/
def lineApply (s0 : State) (ci : CartItem) (st : State) : State :=
  ((if (s0.cartVariant ci).isSome
    then st.decVariantStock (ci.variantId.getD 0) ci.quantity
    else st.decProductStock ci.productId ci.quantity).incProductSold
      ci.productId ci.quantity)

/-- The whole `for (const cartItem of cartItems)` loop of
`OrdersService.create` (lines 66–128): per-line validation via
`lineCheck` against the loading state `s0`, writes via `lineApply`
threading the transaction state.  Returns the threaded state, the
drafted order items, and the subtotal. -/
def checkoutLoop (s0 : State) : List CartItem → State → Except Err (State × List OrderItem × ℚ)
  | [], st => .ok (st, [], 0)
  | ci :: rest, st =>
    match lineCheck s0 ci with
    | .error e => .error e
    | .ok draft =>
      match checkoutLoop s0 rest (lineApply s0 ci st) with
      | .error e => .error e
      | .ok (st', items, sub) => .ok (st', draft :: items, draft.total + sub)

/-- The committing writes of the checkout transaction (lines
150–191): save the order row, its items, the initial payment, delete
the user's cart lines, advance the id counter. -/
def commitState (userId : Nat) (s1 : State) (order : Order) (items : List OrderItem)
    (payment : Payment) : State :=
  { s1 with
    orders := s1.orders ++ [order]
    orderItems := s1.orderItems ++ items
    payments := s1.payments ++ [payment]
    cartItems := s1.cartItems.filter (fun ci => !(ci.userId == userId))
    nextOrderId := s1.nextOrderId + 1 }

/-- The body of the checkout transaction (the `try` block of
`OrdersService.create`, lines 51–199).  `commitFault` injects a
storage failure raised after the writes but before
`commitTransaction`. -/
def createRun (cfg : Config) (userId : Nat) (dto : CreateOrderDto) (commitFault : Bool)
    (s : State) : Except Err (State × Order) :=
  let cartItems := s.cartItems.filter (fun ci => ci.userId == userId)
  if cartItems.isEmpty then .error .cartEmpty
  else
    match checkoutLoop s cartItems s with
    | .error e => .error e
    | .ok (s1, drafts, subtotal) =>
      let tax := round2 (subtotal * cfg.taxRate)
      let finalShippingCost := if subtotal ≥ cfg.freeShippingThreshold then 0 else cfg.shippingCost
      let discount := match dto.couponCode with
        | some code => OrdersService.applyCoupon code subtotal
        | none => 0
      let total := round2 (subtotal + tax + cfg.shippingCost - discount)
      let orderId := s1.nextOrderId
      let order : Order :=
        { id := orderId
          orderNumber := orderId
          userId := userId
          status := .pending
          subtotal := subtotal
          tax := tax
          shippingCost := finalShippingCost
          discount := discount
          total := total }
      let items := drafts.map (fun d => { d with orderId := orderId })
      let payment : Payment := { orderId := orderId, amount := total, paymentStatus := .pending }
      if commitFault then .error .storageFailure
      else .ok (commitState userId s1 order items payment, order)

/-- `OrdersService.create(userId, createOrderDto)`: runs the
transaction body and, mirroring
`catch (error) { rollbackTransaction; throw error }`, leaves the
store at the caller's state whenever the body errors. -/
def OrdersService.create (cfg : Config) (userId : Nat) (dto : CreateOrderDto)
    (commitFault : Bool) (s : State) : Except Err Order × State :=
  match createRun cfg userId dto commitFault s with
  | .error e => (.error e, s)
  | .ok (s1, order) => (.ok order, s1)

/-!  ## OrdersService.cancel (cancellation workflow)  -/

/-- One iteration of the `for (const item of order.items)` loop of
`OrdersService.cancel` (lines 299–323): `manager.increment` on the
loaded variant relation's stock when present, else on the product's
stock, then `manager.decrement` of the product's sold count.
Relations are read from the loading state `s0`. -/
def restoreApply (s0 : State) (it : OrderItem) (st : State) : State :=
  ((if (it.variantId.bind s0.findVariant).isSome
    then st.incVariantStock (it.variantId.getD 0) it.quantity
    else st.incProductStock it.productId it.quantity).decProductSold
      it.productId it.quantity)

/-- The whole stock-restoring loop of `OrdersService.cancel`. -/
def restoreLoop (s0 : State) : List OrderItem → State → State
  | [], st => st
  | it :: rest, st => restoreLoop s0 rest (restoreApply s0 it st)

/-- The items relation of an order as loaded by
`OrdersService.findOne`. -/
def State.orderItemsOf (s : State) (orderId : Nat) : List OrderItem :=
  s.orderItems.filter (fun it => it.orderId == orderId)

/-- `order.payments.find(p => p.paymentStatus === COMPLETED)` followed
by marking it REFUNDED (lines 332–342): rewrite the first COMPLETED
payment of the order, leave every other payment alone. -/
def markFirstCompletedRefunded (now : Nat) (reason : Option String) (orderId : Nat) :
    List Payment → List Payment
  | [] => []
  | p :: rest =>
    if p.orderId = orderId ∧ p.paymentStatus = .completed
    then { p with
            paymentStatus := .refunded
            refundedAt := some now
            refundReason := some (reason.getD "") } :: rest
    else p :: markFirstCompletedRefunded now reason orderId rest

/-- The payment-refund write of the cancellation workflow (lines
331–342) applied to the store. -/
def refundPayments (now : Nat) (reason : Option String) (orderId : Nat) (s : State) : State :=
  { s with payments := markFirstCompletedRefunded now reason orderId s.payments }

/-- `OrdersService.cancel(userId, orderId, reason?)`
(orders.service.ts lines 279–354). -/
def OrdersService.cancel (now : Nat) (userId : Nat) (orderId : Nat) (reason : Option String)
    (s : State) : Except Err Order × State :=
  match s.findOrder orderId (some userId) with
  | none => (.error .orderNotFound, s)
  | some order =>
    if order.status ≠ .pending ∧ order.status ≠ .confirmed then
      (.error .orderNotCancellable, s)
    else
      let items := s.orderItemsOf orderId
      let s1 := restoreLoop s items s
      let order1 := { order with
                      status := .cancelled
                      cancelledAt := some now
                      cancellationReason := some (reason.getD "") }
      let s2 := s1.saveOrder order1
      (.ok order1, refundPayments now reason orderId s2)

/-!  ## CouponsService.incrementUsage  -/

/-- `CouponsService.incrementUsage(couponId)`:
`couponRepository.increment({ id }, "usedCount", 1)`.  No code path of
`OrdersService.create` or `OrdersService.cancel` invokes it. -/
def CouponsService.incrementUsage (couponId : Nat) (s : State) : State :=
  { s with coupons := s.coupons.map (fun c =>
      if c.id = couponId then { c with usedCount := c.usedCount + 1 } else c) }

/-!  ## Stock counters and operation sequences (for the invariant claims)  -/

/-- A mutable stock counter: either a product row's `stock` column or
a variant row's `stock` column. -/
inductive StockKey
  | product (pid : Nat)
  | variant (vid : Nat)
deriving DecidableEq, Repr

/-- The counter a cart line or order item targets, resolved exactly
the way both loops do: the variant counter when the line's
`variantId` resolves to a loaded variant row, else the product
counter. -/
def lineKey (s : State) (pid : Nat) (vid : Option Nat) : StockKey :=
  if (vid.bind s.findVariant).isSome then .variant (vid.getD 0) else .product pid

/-- The current value of a stock counter (0 when the row is absent). -/
def State.stockOf (s : State) : StockKey → Int
  | .product pid => ((s.findProduct pid).map (·.stock)).getD 0
  | .variant vid => ((s.findVariant vid).map (·.stock)).getD 0

/-- The current `soldCount` of a product row (0 when absent). -/
def State.soldOf (s : State) (pid : Nat) : Int :=
  ((s.findProduct pid).map (·.soldCount)).getD 0

/-- Whether a counter has a backing row. -/
def State.rowExists (s : State) : StockKey → Bool
  | .product pid => (s.findProduct pid).isSome
  | .variant vid => (s.findVariant vid).isSome

/-- Decrement of an arbitrary stock counter (dispatches to the
product or variant column update). -/
def State.decStock (s : State) (k : StockKey) (q : Nat) : State :=
  match k with
  | .product pid => s.decProductStock pid q
  | .variant vid => s.decVariantStock vid q

/-- Increment of an arbitrary stock counter. -/
def State.incStock (s : State) (k : StockKey) (q : Nat) : State :=
  match k with
  | .product pid => s.incProductStock pid q
  | .variant vid => s.incVariantStock vid q

/-- Total quantity a list of order items restores to counter `k`
(resolution of variants read in state `s`). -/
def restoredQty (s : State) (items : List OrderItem) (k : StockKey) : Int :=
  (items.map (fun it =>
    if lineKey s it.productId it.variantId = k then (it.quantity : Int) else 0)).sum

/-- Total quantity a list of order items removes from product `pid`'s
`soldCount`. -/
def soldQty (items : List OrderItem) (pid : Nat) : Int :=
  (items.map (fun it => if it.productId = pid then (it.quantity : Int) else 0)).sum

/-- Both sides of the stock non-negativity invariant: every product
row and every variant row carries a non-negative stock. -/
def StocksNonneg (s : State) : Prop :=
  (∀ p ∈ s.products, 0 ≤ p.stock) ∧ (∀ v ∈ s.variants, 0 ≤ v.stock)

/-- The per-user identity of a cart line's stock counter. -/
def cartKey (s : State) (ci : CartItem) : Nat × StockKey :=
  (ci.userId, lineKey s ci.productId ci.variantId)

/-- Database well-formedness: non-negative stocks, unique primary
keys on products and variants, and — per the unique index on
`(userId, productId, variantId)` together with the variant-ownership
check of `addToCart` — no two cart lines of one user targeting the
same stock counter. -/
def WellFormed (s : State) : Prop :=
  StocksNonneg s
    ∧ (s.products.map (·.id)).Nodup
    ∧ (s.variants.map (·.id)).Nodup
    ∧ (s.cartItems.map (cartKey s)).Nodup

/-- Frame relation of the stock-writing loops: `s'` agrees with `s`
on everything except the numeric columns of products and variants —
same carts, orders, order items, payments, coupons and id counter,
and the same rows (by id) in the two stock-bearing tables. -/
def SameShape (s s' : State) : Prop :=
  s'.cartItems = s.cartItems ∧ s'.orders = s.orders ∧ s'.orderItems = s.orderItems
    ∧ s'.payments = s.payments ∧ s'.coupons = s.coupons ∧ s'.nextOrderId = s.nextOrderId
    ∧ s'.products.map (·.id) = s.products.map (·.id)
    ∧ s'.variants.map (·.id) = s.variants.map (·.id)

/-- One customer-facing mutation of the order subsystem: a checkout
attempt or a cancellation attempt. -/
inductive Op
  | checkout (userId : Nat) (dto : CreateOrderDto) (commitFault : Bool)
  | cancelOrder (now : Nat) (userId : Nat) (orderId : Nat) (reason : Option String)

/-- The store state an operation leaves behind (the error outcome of
the operation keeps the rolled-back state). -/
def applyOp (cfg : Config) (s : State) : Op → State
  | .checkout u dto f => (OrdersService.create cfg u dto f s).2
  | .cancelOrder now u oid r => (OrdersService.cancel now u oid r s).2

/-- Run a sequence of checkout/cancellation operations. -/
def runOps (cfg : Config) : List Op → State → State
  | [], s => s
  | op :: rest, s => runOps cfg rest (applyOp cfg s op)

/-!  ## Concrete fixtures used by the evaluation theorems  -/

/-- Fixture: an active product, price 50, stock 10. -/
def prodA : Product :=
  { id := 1, name := "Widget", sku := "W-1", price := 50, salePrice := none,
    stock := 10, soldCount := 0, status := .active }

/-- Fixture: user 1 has a single cart line of two units of `prodA`,
so the checkout subtotal is exactly the free-shipping threshold 100. -/
def stateA : State :=
  { products := [prodA], variants := [],
    cartItems := [{ userId := 1, productId := 1, variantId := none, quantity := 2 }],
    orders := [], orderItems := [], payments := [], coupons := [], nextOrderId := 7 }

/-- The order `OrdersService.create` persists for `stateA` under the
default configuration. -/
def orderA : Order :=
  { id := 7, orderNumber := 7, userId := 1, status := .pending,
    subtotal := 100, tax := 8, shippingCost := 0, discount := 0, total := 118 }

/-- Fixture: an active coupon with three recorded uses. -/
def couponS : Coupon :=
  { id := 1, code := "SAVE10", discountType := .percentage, discountValue := 10,
    minOrderAmount := 0, maxUses := 100, usedCount := 3, maxUsesPerUser := 1,
    status := .active }

/-- Fixture: `stateA` with `couponS` on file. -/
def stateS : State := { stateA with coupons := [couponS] }

/-- Fixture: an active product listed at 100 with a sale price of 80. -/
def prodSale : Product :=
  { id := 2, name := "Gadget", sku := "G-1", price := 100, salePrice := some 80,
    stock := 5, soldCount := 0, status := .active }

/-- Fixture: user 1 has one unit of the on-sale product in the cart. -/
def stateSale : State :=
  { products := [prodSale], variants := [],
    cartItems := [{ userId := 1, productId := 2, variantId := none, quantity := 1 }],
    orders := [], orderItems := [], payments := [], coupons := [], nextOrderId := 3 }

/-- The order item `OrdersService.create` persists for `stateSale`:
the list price 100 is charged, not the sale price 80. -/
def itemSale : OrderItem :=
  { orderId := 3, productId := 2, variantId := none, name := "Gadget", sku := "G-1",
    unitPrice := 100, quantity := 1, total := 100 }

/-- The order `OrdersService.create` persists for `stateSale`. -/
def orderSale : Order :=
  { id := 3, orderNumber := 3, userId := 1, status := .pending,
    subtotal := 100, tax := 8, shippingCost := 0, discount := 0, total := 118 }

/-- Fixture: a store with an empty cart for every user. -/
def stateEmpty : State :=
  { products := [], variants := [], cartItems := [], orders := [], orderItems := [],
    payments := [], coupons := [], nextOrderId := 1 }

/-- Fixture: an order already in status SHIPPED, stamped `shippedAt = 5`. -/
def orderShipped : Order :=
  { id := 1, orderNumber := 1, userId := 1, status := .shipped,
    subtotal := 10, tax := 1, shippingCost := 10, discount := 0, total := 21,
    shippedAt := some 5 }

/-- Fixture: store holding just `orderShipped`. -/
def stateShipped : State :=
  { products := [], variants := [], cartItems := [], orders := [orderShipped],
    orderItems := [], payments := [], coupons := [], nextOrderId := 2 }

/-- Fixture: a product with 4 units in stock and 3 sold. -/
def prodP : Product :=
  { id := 5, name := "Thing", sku := "T-1", price := 20, salePrice := none,
    stock := 4, soldCount := 3, status := .active }

/-- Fixture: a PENDING order of user 2. -/
def orderP : Order :=
  { id := 9, orderNumber := 9, userId := 2, status := .pending,
    subtotal := 60, tax := 5, shippingCost := 10, discount := 0, total := 75 }

/-- Fixture: the single line of `orderP`: three units of `prodP`. -/
def itemP : OrderItem :=
  { orderId := 9, productId := 5, variantId := none, name := "Thing", sku := "T-1",
    unitPrice := 20, quantity := 3, total := 60 }

/-- Fixture: a COMPLETED payment for `orderP`. -/
def payP : Payment := { orderId := 9, amount := 75, paymentStatus := .completed }

/-- Fixture: store holding `orderP` ready to cancel. -/
def stateP : State :=
  { products := [prodP], variants := [], cartItems := [], orders := [orderP],
    orderItems := [itemP], payments := [payP], coupons := [], nextOrderId := 10 }

/-- Fixture: an add-to-cart request for three more units of `prodA`. -/
def dtoW : AddToCartDto := { productId := 1, variantId := none, quantity := 3 }

/-- Fixture: the cart line of `stateA` that `dtoW` merges into. -/
def lineW : CartItem := { userId := 1, productId := 1, variantId := none, quantity := 2 }

section EvaluationSection

attribute [local semireducible] Rat.ofScientific Rat.mul Rat.inv Rat.add Rat.sub

/-!  ## List and repository lemmas  -/

/-- A `find?` over an id-preserving row rewrite returns the rewritten
row that the original `find?` returns. -/
theorem find?_map_pred {α : Type} (g : α → α) (p : α → Bool) (h : ∀ x, p (g x) = p x) :
    ∀ l : List α, (l.map g).find? p = (l.find? p).map g
  | [] => rfl
  | a :: t => by
    cases hpa : p a with
    | true => simp [List.find?_cons, h, hpa]
    | false => simp [List.find?_cons, h, hpa, find?_map_pred g p h t]

/-- Mapping an id-preserving rewrite keeps the id column. -/
theorem map_map_id {α : Type} (f : α → Nat) (g : α → α) (hg : ∀ x, f (g x) = f x) :
    ∀ l : List α, (l.map g).map f = l.map f
  | [] => rfl
  | a :: t => by simp [hg, map_map_id f g hg t]

/-- Row existence only depends on the id column. -/
theorem find?_id_isSome_eq {α : Type} (f : α → Nat) (n : Nat) :
    ∀ (l1 l2 : List α), l1.map f = l2.map f →
      (l1.find? (fun x => f x == n)).isSome = (l2.find? (fun x => f x == n)).isSome
  | [], [], _ => rfl
  | [], b :: t2, h => by simp at h
  | a :: t1, [], h => by simp at h
  | a :: t1, b :: t2, h => by
    simp only [List.map_cons, List.cons.injEq] at h
    obtain ⟨h1, h2⟩ := h
    cases hb : f b == n with
    | true => simp [List.find?_cons, h1, hb]
    | false => simp [List.find?_cons, h1, hb, find?_id_isSome_eq f n t1 t2 h2]

/-- Under unique ids, the row found by id is the member itself. -/
theorem find?_id_of_mem_nodup {α : Type} (f : α → Nat) (n : Nat) :
    ∀ (l : List α), (l.map f).Nodup → ∀ x ∈ l, f x = n →
      l.find? (fun y => f y == n) = some x
  | [], _, x, hx, _ => by cases hx
  | a :: t, hnd, x, hx, hfx => by
    simp only [List.map_cons, List.nodup_cons] at hnd
    cases List.mem_cons.mp hx with
    | inl he =>
      subst he
      simp [List.find?_cons, hfx]
    | inr ht =>
      have hfa : (f a == n) = false := by
        rw [beq_eq_false_iff_ne]
        intro hcontra
        exact hnd.1 (by rw [hcontra, ← hfx]; exact List.mem_map_of_mem f ht)
      simp only [List.find?_cons, hfa]
      exact find?_id_of_mem_nodup f n t hnd.2 x ht hfx

/-- A found product row has the id it was looked up by. -/
theorem findProduct_id (s : State) (pid : Nat) (p : Product)
    (h : s.findProduct pid = some p) : p.id = pid := by
  have := List.find?_some h
  simpa using this

/-- A found variant row has the id it was looked up by. -/
theorem findVariant_id (s : State) (vid : Nat) (v : ProductVariant)
    (h : s.findVariant vid = some v) : v.id = vid := by
  have := List.find?_some h
  simpa using this

/-!  ## Effect of the column updates on lookups  -/

/-- Effect of a product stock decrement on product lookups. -/
theorem findProduct_decProductStock (s : State) (pid q pid' : Nat) :
    (s.decProductStock pid q).findProduct pid'
      = (s.findProduct pid').map
          (fun p => if p.id = pid then { p with stock := p.stock - q } else p) :=
  find?_map_pred _ _ (fun x => by by_cases h : x.id = pid <;> simp [h]) _

/-- Effect of a product stock increment on product lookups. -/
theorem findProduct_incProductStock (s : State) (pid q pid' : Nat) :
    (s.incProductStock pid q).findProduct pid'
      = (s.findProduct pid').map
          (fun p => if p.id = pid then { p with stock := p.stock + q } else p) :=
  find?_map_pred _ _ (fun x => by by_cases h : x.id = pid <;> simp [h]) _

/-- Effect of a sold-count increment on product lookups. -/
theorem findProduct_incProductSold (s : State) (pid q pid' : Nat) :
    (s.incProductSold pid q).findProduct pid'
      = (s.findProduct pid').map
          (fun p => if p.id = pid then { p with soldCount := p.soldCount + q } else p) :=
  find?_map_pred _ _ (fun x => by by_cases h : x.id = pid <;> simp [h]) _

/-- Effect of a sold-count decrement on product lookups. -/
theorem findProduct_decProductSold (s : State) (pid q pid' : Nat) :
    (s.decProductSold pid q).findProduct pid'
      = (s.findProduct pid').map
          (fun p => if p.id = pid then { p with soldCount := p.soldCount - q } else p) :=
  find?_map_pred _ _ (fun x => by by_cases h : x.id = pid <;> simp [h]) _

/-- Effect of a variant stock decrement on variant lookups. -/
theorem findVariant_decVariantStock (s : State) (vid q vid' : Nat) :
    (s.decVariantStock vid q).findVariant vid'
      = (s.findVariant vid').map
          (fun v => if v.id = vid then { v with stock := v.stock - q } else v) :=
  find?_map_pred _ _ (fun x => by by_cases h : x.id = vid <;> simp [h]) _

/-- Effect of a variant stock increment on variant lookups. -/
theorem findVariant_incVariantStock (s : State) (vid q vid' : Nat) :
    (s.incVariantStock vid q).findVariant vid'
      = (s.findVariant vid').map
          (fun v => if v.id = vid then { v with stock := v.stock + q } else v) :=
  find?_map_pred _ _ (fun x => by by_cases h : x.id = vid <;> simp [h]) _

/-!  ## Counter arithmetic of the column updates  -/

/-- A decrement hits its own counter. -/
theorem stockOf_decStock_same (s : State) (k : StockKey) (q : Nat)
    (h : s.rowExists k = true) :
    (s.decStock k q).stockOf k = s.stockOf k - q := by
  cases k with
  | product pid =>
    simp only [State.rowExists, Option.isSome_iff_exists] at h
    obtain ⟨p, hp⟩ := h
    have hid := findProduct_id s pid p hp
    simp [State.decStock, State.stockOf, findProduct_decProductStock, hp, hid]
  | variant vid =>
    simp only [State.rowExists, Option.isSome_iff_exists] at h
    obtain ⟨v, hv⟩ := h
    have hid := findVariant_id s vid v hv
    simp [State.decStock, State.stockOf, findVariant_decVariantStock, hv, hid]

/-- An increment hits its own counter. -/
theorem stockOf_incStock_same (s : State) (k : StockKey) (q : Nat)
    (h : s.rowExists k = true) :
    (s.incStock k q).stockOf k = s.stockOf k + q := by
  cases k with
  | product pid =>
    simp only [State.rowExists, Option.isSome_iff_exists] at h
    obtain ⟨p, hp⟩ := h
    have hid := findProduct_id s pid p hp
    simp [State.incStock, State.stockOf, findProduct_incProductStock, hp, hid]
  | variant vid =>
    simp only [State.rowExists, Option.isSome_iff_exists] at h
    obtain ⟨v, hv⟩ := h
    have hid := findVariant_id s vid v hv
    simp [State.incStock, State.stockOf, findVariant_incVariantStock, hv, hid]

/-- A decrement leaves every other counter alone. -/
theorem stockOf_decStock_ne (s : State) (k k' : StockKey) (q : Nat) (h : k' ≠ k) :
    (s.decStock k q).stockOf k' = s.stockOf k' := by
  cases k with
  | product pid =>
    cases k' with
    | product pid' =>
      have hne : pid' ≠ pid := fun he => h (by rw [he])
      simp only [State.decStock, State.stockOf, findProduct_decProductStock]
      cases hp : s.findProduct pid' with
      | none => rfl
      | some p =>
        have hid := findProduct_id s pid' p hp
        simp [hid, hne]
    | variant vid' => rfl
  | variant vid =>
    cases k' with
    | product pid' => rfl
    | variant vid' =>
      have hne : vid' ≠ vid := fun he => h (by rw [he])
      simp only [State.decStock, State.stockOf, findVariant_decVariantStock]
      cases hv : s.findVariant vid' with
      | none => rfl
      | some v =>
        have hid := findVariant_id s vid' v hv
        simp [hid, hne]

/-- An increment leaves every other counter alone. -/
theorem stockOf_incStock_ne (s : State) (k k' : StockKey) (q : Nat) (h : k' ≠ k) :
    (s.incStock k q).stockOf k' = s.stockOf k' := by
  cases k with
  | product pid =>
    cases k' with
    | product pid' =>
      have hne : pid' ≠ pid := fun he => h (by rw [he])
      simp only [State.incStock, State.stockOf, findProduct_incProductStock]
      cases hp : s.findProduct pid' with
      | none => rfl
      | some p =>
        have hid := findProduct_id s pid' p hp
        simp [hid, hne]
    | variant vid' => rfl
  | variant vid =>
    cases k' with
    | product pid' => rfl
    | variant vid' =>
      have hne : vid' ≠ vid := fun he => h (by rw [he])
      simp only [State.incStock, State.stockOf, findVariant_incVariantStock]
      cases hv : s.findVariant vid' with
      | none => rfl
      | some v =>
        have hid := findVariant_id s vid' v hv
        simp [hid, hne]

/-- Sold-count increments do not touch stock counters. -/
theorem stockOf_incProductSold (s : State) (pid : Nat) (q : Nat) (k : StockKey) :
    (s.incProductSold pid q).stockOf k = s.stockOf k := by
  cases k with
  | product pid' =>
    simp only [State.stockOf, findProduct_incProductSold]
    cases hp : s.findProduct pid' with
    | none => rfl
    | some p => by_cases hid : p.id = pid <;> simp [hid]
  | variant vid' => rfl

/-- Sold-count decrements do not touch stock counters. -/
theorem stockOf_decProductSold (s : State) (pid : Nat) (q : Nat) (k : StockKey) :
    (s.decProductSold pid q).stockOf k = s.stockOf k := by
  cases k with
  | product pid' =>
    simp only [State.stockOf, findProduct_decProductSold]
    cases hp : s.findProduct pid' with
    | none => rfl
    | some p => by_cases hid : p.id = pid <;> simp [hid]
  | variant vid' => rfl

/-- A sold-count decrement hits its own product. -/
theorem soldOf_decProductSold_same (s : State) (pid : Nat) (q : Nat)
    (h : (s.findProduct pid).isSome = true) :
    (s.decProductSold pid q).soldOf pid = s.soldOf pid - q := by
  simp only [Option.isSome_iff_exists] at h
  obtain ⟨p, hp⟩ := h
  have hid := findProduct_id s pid p hp
  simp [State.soldOf, findProduct_decProductSold, hp, hid]

/-- A sold-count decrement leaves other products alone. -/
theorem soldOf_decProductSold_ne (s : State) (pid : Nat) (q : Nat) (pid' : Nat)
    (h : pid' ≠ pid) :
    (s.decProductSold pid q).soldOf pid' = s.soldOf pid' := by
  simp only [State.soldOf, findProduct_decProductSold]
  cases hp : s.findProduct pid' with
  | none => rfl
  | some p =>
    have hid := findProduct_id s pid' p hp
    simp [hid, h]

/-- Stock decrements do not touch sold counts. -/
theorem soldOf_decStock (s : State) (k : StockKey) (q : Nat) (pid' : Nat) :
    (s.decStock k q).soldOf pid' = s.soldOf pid' := by
  cases k with
  | product pid =>
    simp only [State.decStock, State.soldOf, findProduct_decProductStock]
    cases hp : s.findProduct pid' with
    | none => rfl
    | some p => by_cases hid : p.id = pid <;> simp [hid]
  | variant vid => rfl

/-- Stock increments do not touch sold counts. -/
theorem soldOf_incStock (s : State) (k : StockKey) (q : Nat) (pid' : Nat) :
    (s.incStock k q).soldOf pid' = s.soldOf pid' := by
  cases k with
  | product pid =>
    simp only [State.incStock, State.soldOf, findProduct_incProductStock]
    cases hp : s.findProduct pid' with
    | none => rfl
    | some p => by_cases hid : p.id = pid <;> simp [hid]
  | variant vid => rfl

/-!  ## Frame properties of the column updates  -/

/-- SameShape is reflexive. -/
theorem sameShape_refl (s : State) : SameShape s s :=
  ⟨rfl, rfl, rfl, rfl, rfl, rfl, rfl, rfl⟩

/-- SameShape composes. -/
theorem sameShape_trans {s s' s'' : State} (h1 : SameShape s s') (h2 : SameShape s' s'') :
    SameShape s s'' := by
  obtain ⟨a1, b1, c1, d1, e1, f1, g1, i1⟩ := h1
  obtain ⟨a2, b2, c2, d2, e2, f2, g2, i2⟩ := h2
  exact ⟨a2.trans a1, b2.trans b1, c2.trans c1, d2.trans d1, e2.trans e1,
    f2.trans f1, g2.trans g1, i2.trans i1⟩

/-- A stock decrement only rewrites a numeric column. -/
theorem sameShape_decStock (s : State) (k : StockKey) (q : Nat) :
    SameShape s (s.decStock k q) := by
  cases k with
  | product pid =>
    exact ⟨rfl, rfl, rfl, rfl, rfl, rfl,
      map_map_id _ _ (fun p => by by_cases h : p.id = pid <;> simp [h]) _, rfl⟩
  | variant vid =>
    exact ⟨rfl, rfl, rfl, rfl, rfl, rfl, rfl,
      map_map_id _ _ (fun v => by by_cases h : v.id = vid <;> simp [h]) _⟩

/-- A stock increment only rewrites a numeric column. -/
theorem sameShape_incStock (s : State) (k : StockKey) (q : Nat) :
    SameShape s (s.incStock k q) := by
  cases k with
  | product pid =>
    exact ⟨rfl, rfl, rfl, rfl, rfl, rfl,
      map_map_id _ _ (fun p => by by_cases h : p.id = pid <;> simp [h]) _, rfl⟩
  | variant vid =>
    exact ⟨rfl, rfl, rfl, rfl, rfl, rfl, rfl,
      map_map_id _ _ (fun v => by by_cases h : v.id = vid <;> simp [h]) _⟩

/-- A sold-count increment only rewrites a numeric column. -/
theorem sameShape_incProductSold (s : State) (pid q : Nat) :
    SameShape s (s.incProductSold pid q) :=
  ⟨rfl, rfl, rfl, rfl, rfl, rfl,
    map_map_id _ _ (fun p => by by_cases h : p.id = pid <;> simp [h]) _, rfl⟩

/-- A sold-count decrement only rewrites a numeric column. -/
theorem sameShape_decProductSold (s : State) (pid q : Nat) :
    SameShape s (s.decProductSold pid q) :=
  ⟨rfl, rfl, rfl, rfl, rfl, rfl,
    map_map_id _ _ (fun p => by by_cases h : p.id = pid <;> simp [h]) _, rfl⟩

/-- Product existence transfers between same-shaped states. -/
theorem findProduct_isSome_of_sameShape {s s' : State} (h : SameShape s s') (pid : Nat) :
    (s'.findProduct pid).isSome = (s.findProduct pid).isSome := by
  unfold State.findProduct
  exact find?_id_isSome_eq (fun p : Product => p.id) pid _ _ h.2.2.2.2.2.2.1

/-- Variant existence transfers between same-shaped states. -/
theorem findVariant_isSome_of_sameShape {s s' : State} (h : SameShape s s') (vid : Nat) :
    (s'.findVariant vid).isSome = (s.findVariant vid).isSome := by
  unfold State.findVariant
  exact find?_id_isSome_eq (fun v : ProductVariant => v.id) vid _ _ h.2.2.2.2.2.2.2

/-- Counter existence transfers between same-shaped states. -/
theorem rowExists_of_sameShape {s s' : State} (h : SameShape s s') (k : StockKey) :
    s'.rowExists k = s.rowExists k := by
  cases k with
  | product pid => exact findProduct_isSome_of_sameShape h pid
  | variant vid => exact findVariant_isSome_of_sameShape h vid

/-- A line's counter only depends on the variant id column. -/
theorem lineKey_eq_of_variants {s s' : State}
    (h : s'.variants.map (·.id) = s.variants.map (·.id)) (pid : Nat) (vid : Option Nat) :
    lineKey s' pid vid = lineKey s pid vid := by
  unfold lineKey
  cases vid with
  | none => rfl
  | some w =>
    rw [Option.some_bind, Option.some_bind]
    have : (s'.findVariant w).isSome = (s.findVariant w).isSome := by
      unfold State.findVariant
      exact find?_id_isSome_eq (fun v : ProductVariant => v.id) w _ _ h
    rw [this]

/-- Pointwise cart-key stability under variant-id-preserving updates. -/
theorem cartKey_eq_of_variants {s s' : State}
    (h : s'.variants.map (·.id) = s.variants.map (·.id)) (ci : CartItem) :
    cartKey s' ci = cartKey s ci := by
  unfold cartKey
  rw [lineKey_eq_of_variants h]

/-- The commit writes do not change any cart key. -/
theorem cartKeyF_commitState (u : Nat) (s1 : State) (o : Order) (its : List OrderItem)
    (pay : Payment) : cartKey (commitState u s1 o its pay) = cartKey s1 :=
  funext (cartKey_eq_of_variants rfl)

/-- Saving an order does not change any cart key. -/
theorem cartKeyF_saveOrder (s : State) (o : Order) :
    cartKey (s.saveOrder o) = cartKey s :=
  funext (cartKey_eq_of_variants rfl)

/-- Marking a payment refunded does not change any cart key. -/
theorem cartKeyF_refundPayments (now : Nat) (r : Option String) (oid : Nat) (s : State) :
    cartKey (refundPayments now r oid s) = cartKey s :=
  funext (cartKey_eq_of_variants rfl)

/-!  ## Non-negativity of the guarded updates  -/

/-- A guarded decrement keeps all stocks non-negative (unique ids make
the guard protect exactly the rewritten row). -/
theorem nonneg_decStock (s : State) (k : StockKey) (q : Nat)
    (hn : StocksNonneg s)
    (hp : (s.products.map (·.id)).Nodup) (hv : (s.variants.map (·.id)).Nodup)
    (hq : (q : Int) ≤ s.stockOf k) :
    StocksNonneg (s.decStock k q) := by
  obtain ⟨hn1, hn2⟩ := hn
  cases k with
  | product pid =>
    refine ⟨?_, hn2⟩
    intro p' hp'
    simp only [State.decStock, State.decProductStock, List.mem_map] at hp'
    obtain ⟨p, hmem, hpe⟩ := hp'
    subst hpe
    by_cases hid : p.id = pid
    · have hfind : s.findProduct pid = some p :=
        find?_id_of_mem_nodup (fun p : Product => p.id) pid s.products hp p hmem hid
      have hstock : s.stockOf (.product pid) = p.stock := by
        simp [State.stockOf, hfind]
      rw [hstock] at hq
      simp [hid]
      omega
    · simp [hid]
      exact hn1 p hmem
  | variant vid =>
    refine ⟨hn1, ?_⟩
    intro v' hv'
    simp only [State.decStock, State.decVariantStock, List.mem_map] at hv'
    obtain ⟨v, hmem, hve⟩ := hv'
    subst hve
    by_cases hid : v.id = vid
    · have hfind : s.findVariant vid = some v :=
        find?_id_of_mem_nodup (fun v : ProductVariant => v.id) vid s.variants hv v hmem hid
      have hstock : s.stockOf (.variant vid) = v.stock := by
        simp [State.stockOf, hfind]
      rw [hstock] at hq
      simp [hid]
      omega
    · simp [hid]
      exact hn2 v hmem

/-- An increment keeps all stocks non-negative. -/
theorem nonneg_incStock (s : State) (k : StockKey) (q : Nat) (hn : StocksNonneg s) :
    StocksNonneg (s.incStock k q) := by
  obtain ⟨hn1, hn2⟩ := hn
  cases k with
  | product pid =>
    refine ⟨?_, hn2⟩
    intro p' hp'
    simp only [State.incStock, State.incProductStock, List.mem_map] at hp'
    obtain ⟨p, hmem, hpe⟩ := hp'
    subst hpe
    by_cases hid : p.id = pid <;> simp [hid]
    · have := hn1 p hmem; omega
    · exact hn1 p hmem
  | variant vid =>
    refine ⟨hn1, ?_⟩
    intro v' hv'
    simp only [State.incStock, State.incVariantStock, List.mem_map] at hv'
    obtain ⟨v, hmem, hve⟩ := hv'
    subst hve
    by_cases hid : v.id = vid <;> simp [hid]
    · have := hn2 v hmem; omega
    · exact hn2 v hmem

/-- Sold-count increments keep all stocks non-negative. -/
theorem nonneg_incProductSold (s : State) (pid q : Nat) (hn : StocksNonneg s) :
    StocksNonneg (s.incProductSold pid q) := by
  obtain ⟨hn1, hn2⟩ := hn
  refine ⟨?_, hn2⟩
  intro p' hp'
  simp only [State.incProductSold, List.mem_map] at hp'
  obtain ⟨p, hmem, hpe⟩ := hp'
  subst hpe
  by_cases hid : p.id = pid <;> simp [hid] <;> exact hn1 p hmem

/-- Sold-count decrements keep all stocks non-negative. -/
theorem nonneg_decProductSold (s : State) (pid q : Nat) (hn : StocksNonneg s) :
    StocksNonneg (s.decProductSold pid q) := by
  obtain ⟨hn1, hn2⟩ := hn
  refine ⟨?_, hn2⟩
  intro p' hp'
  simp only [State.decProductSold, List.mem_map] at hp'
  obtain ⟨p, hmem, hpe⟩ := hp'
  subst hpe
  by_cases hid : p.id = pid <;> simp [hid] <;> exact hn1 p hmem

/-!  ## Properties of the checkout loop  -/

/-- The write half of a loop iteration, expressed through the line's
stock counter. -/
theorem lineApply_eq (s0 : State) (ci : CartItem) (st : State) :
    lineApply s0 ci st
      = (st.decStock (lineKey s0 ci.productId ci.variantId) ci.quantity).incProductSold
          ci.productId ci.quantity := by
  unfold lineApply lineKey State.cartVariant
  cases hv : (ci.variantId.bind s0.findVariant).isSome <;> simp [hv, State.decStock]

/-- The restore half of a cancel iteration, expressed through the
item's stock counter. -/
theorem restoreApply_eq (s0 : State) (it : OrderItem) (st : State) :
    restoreApply s0 it st
      = (st.incStock (lineKey s0 it.productId it.variantId) it.quantity).decProductSold
          it.productId it.quantity := by
  unfold restoreApply lineKey
  cases hv : (it.variantId.bind s0.findVariant).isSome <;> simp [hv, State.incStock]

/-- A line's counter has a backing row whenever its product does. -/
theorem rowExists_lineKey (s : State) (pid : Nat) (vid : Option Nat)
    (hp : (s.findProduct pid).isSome = true) :
    s.rowExists (lineKey s pid vid) = true := by
  unfold lineKey
  cases hv : (vid.bind s.findVariant).isSome with
  | false => simpa [State.rowExists] using hp
  | true =>
    simp only [if_pos rfl]
    cases vid with
    | none => simp at hv
    | some w =>
      rw [Option.some_bind] at hv
      simpa [State.rowExists] using hv

/-- What a successful line validation guarantees: the draft freezes
the line's product and variant, its quantity, the unit price selected
by the variant-else-product rule, and the line's requested quantity
fits in the counter it will decrement. -/
theorem lineCheck_ok (s0 : State) (ci : CartItem) (draft : OrderItem)
    (h : lineCheck s0 ci = .ok draft) :
    draft.productId = ci.productId ∧ draft.variantId = ci.variantId
      ∧ draft.quantity = ci.quantity
      ∧ (ci.quantity : Int) ≤ s0.stockOf (lineKey s0 ci.productId ci.variantId)
      ∧ s0.rowExists (lineKey s0 ci.productId ci.variantId) = true
      ∧ (match s0.cartVariant ci with
         | some v => draft.unitPrice = v.price
         | none => ∃ p, s0.findProduct ci.productId = some p ∧ draft.unitPrice = p.price) := by
  unfold lineCheck at h
  cases hp : s0.findProduct ci.productId with
  | none => rw [hp] at h; cases h
  | some product =>
    rw [hp] at h
    dsimp only at h
    by_cases hact : product.status = .active
    · rw [if_neg (fun hc => hc hact)] at h
      by_cases hstock : ((ci.quantity : Int)
          > ((s0.cartVariant ci).map (·.stock)).getD product.stock)
      · rw [if_pos hstock] at h; cases h
      · rw [if_neg hstock] at h
        simp only [Except.ok.injEq] at h
        subst h
        have hkey : ((s0.cartVariant ci).map (·.stock)).getD product.stock
            = s0.stockOf (lineKey s0 ci.productId ci.variantId) := by
          unfold State.cartVariant lineKey
          cases hv : (ci.variantId.bind s0.findVariant) with
          | none => simp [hv, State.stockOf, hp]
          | some v =>
            cases hw : ci.variantId with
            | none => rw [hw] at hv; simp at hv
            | some w =>
              rw [hw] at hv
              rw [Option.some_bind] at hv
              simp [hw, Option.some_bind, hv, State.stockOf]
        refine ⟨rfl, rfl, rfl, ?_, ?_, ?_⟩
        · rw [← hkey]; omega
        · exact rowExists_lineKey s0 ci.productId ci.variantId (by simp [hp])
        · cases hv : s0.cartVariant ci with
          | none => exact ⟨product, rfl, by simp⟩
          | some v => simp
    · rw [if_pos (fun hc => hact hc)] at h; cases h

/-- A failed line validation fails the whole loop immediately. -/
theorem checkoutLoop_head_error (s0 : State) (ci : CartItem) (rest : List CartItem)
    (st : State) (e : Err) (h : lineCheck s0 ci = .error e) :
    checkoutLoop s0 (ci :: rest) st = .error e := by
  simp [checkoutLoop, h]

/-- An over-quantity line fails its validation with the
insufficient-stock error carrying the available stock. -/
theorem lineCheck_insufficient (s0 : State) (ci : CartItem) (product : Product)
    (hp : s0.findProduct ci.productId = some product)
    (hact : product.status = .active)
    (hlt : ((s0.cartVariant ci).map (·.stock)).getD product.stock < (ci.quantity : Int)) :
    lineCheck s0 ci
      = .error (.insufficientStock (((s0.cartVariant ci).map (·.stock)).getD product.stock)) := by
  unfold lineCheck
  rw [hp]
  dsimp only
  rw [if_neg (fun hc => hc hact), if_pos hlt]

/-- The checkout loop only rewrites stock and sold-count columns. -/
theorem checkoutLoop_sameShape (s0 : State) :
    ∀ (lines : List CartItem) (st st' : State) (items : List OrderItem) (sub : ℚ),
      checkoutLoop s0 lines st = .ok (st', items, sub) → SameShape st st'
  | [], st, st', items, sub, h => by
    simp only [checkoutLoop, Except.ok.injEq, Prod.mk.injEq] at h
    obtain ⟨h1, -, -⟩ := h
    subst h1
    exact sameShape_refl st
  | ci :: rest, st, st', items, sub, h => by
    simp only [checkoutLoop] at h
    cases hc : lineCheck s0 ci with
    | error e => rw [hc] at h; cases h
    | ok draft =>
      rw [hc] at h
      dsimp only at h
      cases hrec : checkoutLoop s0 rest (lineApply s0 ci st) with
      | error e => rw [hrec] at h; cases h
      | ok trip =>
        obtain ⟨st2, items2, sub2⟩ := trip
        rw [hrec] at h
        simp only [Except.ok.injEq, Prod.mk.injEq] at h
        obtain ⟨h1, -, -⟩ := h
        subst h1
        have hstep : SameShape st (lineApply s0 ci st) := by
          rw [lineApply_eq]
          exact sameShape_trans
            (sameShape_decStock st (lineKey s0 ci.productId ci.variantId) ci.quantity)
            (sameShape_incProductSold _ ci.productId ci.quantity)
        exact sameShape_trans hstep (checkoutLoop_sameShape s0 rest _ _ _ _ hrec)

/-- Every drafted item of a successful loop comes from a cart line and
freezes that line's variant-else-product unit price. -/
theorem checkoutLoop_items (s0 : State) :
    ∀ (lines : List CartItem) (st st' : State) (items : List OrderItem) (sub : ℚ),
      checkoutLoop s0 lines st = .ok (st', items, sub) →
      ∀ it ∈ items, ∃ ci ∈ lines, it.productId = ci.productId ∧ it.variantId = ci.variantId
        ∧ (match s0.cartVariant ci with
           | some v => it.unitPrice = v.price
           | none => ∃ p, s0.findProduct ci.productId = some p ∧ it.unitPrice = p.price)
  | [], st, st', items, sub, h => by
    simp only [checkoutLoop, Except.ok.injEq, Prod.mk.injEq] at h
    obtain ⟨-, h2, -⟩ := h
    subst h2
    intro it hit
    cases hit
  | ci :: rest, st, st', items, sub, h => by
    simp only [checkoutLoop] at h
    cases hc : lineCheck s0 ci with
    | error e => rw [hc] at h; cases h
    | ok draft =>
      rw [hc] at h
      dsimp only at h
      cases hrec : checkoutLoop s0 rest (lineApply s0 ci st) with
      | error e => rw [hrec] at h; cases h
      | ok trip =>
        obtain ⟨st2, items2, sub2⟩ := trip
        rw [hrec] at h
        simp only [Except.ok.injEq, Prod.mk.injEq] at h
        obtain ⟨-, h2, -⟩ := h
        subst h2
        intro it hit
        cases List.mem_cons.mp hit with
        | inl he =>
          subst he
          obtain ⟨f1, f2, -, -, -, f6⟩ := lineCheck_ok s0 ci it hc
          exact ⟨ci, List.mem_cons_self ci rest, f1, f2, f6⟩
        | inr ht =>
          obtain ⟨cj, hcj, rest_props⟩ := checkoutLoop_items s0 rest _ _ _ _ hrec it ht
          exact ⟨cj, List.mem_cons_of_mem ci hcj, rest_props⟩

/-- The central invariant argument: a successful checkout loop over
lines with pairwise-distinct counters, whose counters are untouched
so far, keeps every stock non-negative. -/
theorem checkoutLoop_nonneg (s0 : State) :
    ∀ (lines : List CartItem) (st st' : State) (items : List OrderItem) (sub : ℚ),
      checkoutLoop s0 lines st = .ok (st', items, sub) →
      StocksNonneg st →
      (st.products.map (·.id)).Nodup →
      (st.variants.map (·.id)).Nodup →
      (∀ ci ∈ lines, st.stockOf (lineKey s0 ci.productId ci.variantId)
          = s0.stockOf (lineKey s0 ci.productId ci.variantId)) →
      (lines.map (fun ci => lineKey s0 ci.productId ci.variantId)).Nodup →
      StocksNonneg st'
  | [], st, st', items, sub, h, hn, _, _, _, _ => by
    simp only [checkoutLoop, Except.ok.injEq, Prod.mk.injEq] at h
    obtain ⟨h1, -, -⟩ := h
    subst h1
    exact hn
  | ci :: rest, st, st', items, sub, h, hn, hpn, hvn, hstk, hkeys => by
    simp only [checkoutLoop] at h
    cases hc : lineCheck s0 ci with
    | error e => rw [hc] at h; cases h
    | ok draft =>
      rw [hc] at h
      dsimp only at h
      cases hrec : checkoutLoop s0 rest (lineApply s0 ci st) with
      | error e => rw [hrec] at h; cases h
      | ok trip =>
        obtain ⟨st2, items2, sub2⟩ := trip
        rw [hrec] at h
        simp only [Except.ok.injEq, Prod.mk.injEq] at h
        obtain ⟨h1, -, -⟩ := h
        subst h1
        obtain ⟨-, -, -, f4, f5, -⟩ := lineCheck_ok s0 ci draft hc
        have hkeynd := List.nodup_cons.mp hkeys
        have hstkhead := hstk ci (List.mem_cons_self ci rest)
        have hn2 : StocksNonneg (lineApply s0 ci st) := by
          rw [lineApply_eq]
          refine nonneg_incProductSold _ _ _ ?_
          refine nonneg_decStock st _ ci.quantity hn hpn hvn ?_
          rw [hstkhead]
          exact f4
        have hshape : SameShape st (lineApply s0 ci st) := by
          rw [lineApply_eq]
          exact sameShape_trans
            (sameShape_decStock st (lineKey s0 ci.productId ci.variantId) ci.quantity)
            (sameShape_incProductSold _ ci.productId ci.quantity)
        refine checkoutLoop_nonneg s0 rest _ _ _ _ hrec hn2 ?_ ?_ ?_ hkeynd.2
        · rw [hshape.2.2.2.2.2.2.1]; exact hpn
        · rw [hshape.2.2.2.2.2.2.2]; exact hvn
        · intro cj hcj
          have hne : lineKey s0 cj.productId cj.variantId
              ≠ lineKey s0 ci.productId ci.variantId := by
            intro he
            apply hkeynd.1
            show lineKey s0 ci.productId ci.variantId
              ∈ rest.map (fun ci => lineKey s0 ci.productId ci.variantId)
            rw [← he]
            exact List.mem_map_of_mem _ hcj
          rw [lineApply_eq]
          rw [stockOf_incProductSold, stockOf_decStock_ne _ _ _ _ hne]
          exact hstk cj (List.mem_cons_of_mem ci hcj)

/-!  ## Properties of the restore loop and refund marking  -/

/-- One restore iteration only rewrites numeric columns. -/
theorem restoreApply_sameShape (s0 : State) (it : OrderItem) (st : State) :
    SameShape st (restoreApply s0 it st) := by
  rw [restoreApply_eq]
  exact sameShape_trans
    (sameShape_incStock st (lineKey s0 it.productId it.variantId) it.quantity)
    (sameShape_decProductSold _ it.productId it.quantity)

/-- The restore loop only rewrites numeric columns. -/
theorem restoreLoop_sameShape (s0 : State) :
    ∀ (items : List OrderItem) (st : State), SameShape st (restoreLoop s0 items st)
  | [], st => sameShape_refl st
  | it :: rest, st =>
    sameShape_trans (restoreApply_sameShape s0 it st)
      (restoreLoop_sameShape s0 rest (restoreApply s0 it st))

/-- The restore loop keeps every stock non-negative. -/
theorem restoreLoop_nonneg (s0 : State) :
    ∀ (items : List OrderItem) (st : State), StocksNonneg st →
      StocksNonneg (restoreLoop s0 items st)
  | [], st, hn => hn
  | it :: rest, st, hn => by
    refine restoreLoop_nonneg s0 rest _ ?_
    rw [restoreApply_eq]
    exact nonneg_decProductSold _ _ _ (nonneg_incStock _ _ _ hn)

/-- Head unfolding of the restored-quantity sum. -/
theorem restoredQty_cons (s : State) (it : OrderItem) (rest : List OrderItem) (k : StockKey) :
    restoredQty s (it :: rest) k
      = (if lineKey s it.productId it.variantId = k then (it.quantity : Int) else 0)
        + restoredQty s rest k := by
  simp [restoredQty]

/-- Head unfolding of the reversed-sold-count sum. -/
theorem soldQty_cons (it : OrderItem) (rest : List OrderItem) (pid : Nat) :
    soldQty (it :: rest) pid
      = (if it.productId = pid then (it.quantity : Int) else 0) + soldQty rest pid := by
  simp [soldQty]

/-- Stock accounting of the restore loop: each counter grows by the
total quantity of the items that target it. -/
theorem restoreLoop_stockOf (s0 : State) :
    ∀ (items : List OrderItem) (st : State),
      (∀ it ∈ items, st.rowExists (lineKey s0 it.productId it.variantId) = true) →
      ∀ k, (restoreLoop s0 items st).stockOf k = st.stockOf k + restoredQty s0 items k
  | [], st, _, k => by simp [restoreLoop, restoredQty]
  | it :: rest, st, hex, k => by
    have hhead := hex it (List.mem_cons_self it rest)
    have hex2 : ∀ it' ∈ rest,
        (restoreApply s0 it st).rowExists (lineKey s0 it'.productId it'.variantId) = true := by
      intro it' hit'
      rw [rowExists_of_sameShape (restoreApply_sameShape s0 it st)]
      exact hex it' (List.mem_cons_of_mem it hit')
    have ih := restoreLoop_stockOf s0 rest (restoreApply s0 it st) hex2 k
    rw [restoreLoop, ih, restoredQty_cons]
    have hstep : (restoreApply s0 it st).stockOf k
        = st.stockOf k
          + (if lineKey s0 it.productId it.variantId = k then (it.quantity : Int) else 0) := by
      rw [restoreApply_eq, stockOf_decProductSold]
      by_cases heq : lineKey s0 it.productId it.variantId = k
      · subst heq
        rw [stockOf_incStock_same st _ _ hhead]
        simp
      · rw [stockOf_incStock_ne st _ _ _ (fun hc => heq hc.symm)]
        simp [heq]
    rw [hstep]
    omega

/-- Sold-count accounting of the restore loop: each product's sold
count shrinks by the total quantity of its items. -/
theorem restoreLoop_soldOf (s0 : State) :
    ∀ (items : List OrderItem) (st : State),
      (∀ it ∈ items, (st.findProduct it.productId).isSome = true) →
      ∀ pid, (restoreLoop s0 items st).soldOf pid = st.soldOf pid - soldQty items pid
  | [], st, _, pid => by simp [restoreLoop, soldQty]
  | it :: rest, st, hex, pid => by
    have hhead := hex it (List.mem_cons_self it rest)
    have hex2 : ∀ it' ∈ rest,
        ((restoreApply s0 it st).findProduct it'.productId).isSome = true := by
      intro it' hit'
      rw [findProduct_isSome_of_sameShape (restoreApply_sameShape s0 it st)]
      exact hex it' (List.mem_cons_of_mem it hit')
    have ih := restoreLoop_soldOf s0 rest (restoreApply s0 it st) hex2 pid
    rw [restoreLoop, ih, soldQty_cons]
    have hstep : (restoreApply s0 it st).soldOf pid
        = st.soldOf pid - (if it.productId = pid then (it.quantity : Int) else 0) := by
      rw [restoreApply_eq]
      by_cases heq : it.productId = pid
      · subst heq
        have hsome : ((st.incStock (lineKey s0 it.productId it.variantId)
            it.quantity).findProduct it.productId).isSome = true := by
          rw [findProduct_isSome_of_sameShape (sameShape_incStock st _ _)]
          exact hhead
        rw [soldOf_decProductSold_same _ _ _ hsome, soldOf_incStock]
        simp
      · rw [soldOf_decProductSold_ne _ _ _ _ (Ne.symm heq), soldOf_incStock]
        simp [heq]
    rw [hstep]
    omega

/-- If the order has a COMPLETED payment, the refund marking leaves a
REFUNDED payment of the order stamped with the refund time. -/
theorem markFirst_refund (now : Nat) (reason : Option String) (oid : Nat) :
    ∀ (l : List Payment),
      (∃ p ∈ l, p.orderId = oid ∧ p.paymentStatus = .completed) →
      ∃ p' ∈ markFirstCompletedRefunded now reason oid l,
        p'.orderId = oid ∧ p'.paymentStatus = .refunded ∧ p'.refundedAt = some now
  | [], h => by simp at h
  | p :: rest, h => by
    by_cases hg : p.orderId = oid ∧ p.paymentStatus = .completed
    · refine ⟨{ p with
          paymentStatus := .refunded
          refundedAt := some now
          refundReason := some (reason.getD "") }, ?_, hg.1, rfl, rfl⟩
      simp [markFirstCompletedRefunded, hg]
    · obtain ⟨q, hq, hq2⟩ := h
      cases List.mem_cons.mp hq with
      | inl he => subst he; exact absurd hq2 hg
      | inr ht =>
        obtain ⟨p', hp', hp'2⟩ := markFirst_refund now reason oid rest ⟨q, ht, hq2⟩
        refine ⟨p', ?_, hp'2⟩
        simp [markFirstCompletedRefunded, hg]
        exact .inr hp'

/-- Distinct cart keys of one user give distinct line counters. -/
theorem userLines_keys_nodup (s : State) (u : Nat)
    (h : (s.cartItems.map (cartKey s)).Nodup) :
    ((s.cartItems.filter (fun ci => ci.userId == u)).map
      (fun ci => lineKey s ci.productId ci.variantId)).Nodup := by
  have hsub : List.Sublist
      ((s.cartItems.filter (fun ci => ci.userId == u)).map (cartKey s))
      (s.cartItems.map (cartKey s)) :=
    (List.filter_sublist s.cartItems).map (cartKey s)
  have hnd2 := h.sublist hsub
  have hcongr : (s.cartItems.filter (fun ci => ci.userId == u)).map (cartKey s)
      = ((s.cartItems.filter (fun ci => ci.userId == u)).map
          (fun ci => lineKey s ci.productId ci.variantId)).map (fun k => (u, k)) := by
    rw [List.map_map]
    refine List.map_congr_left ?_
    intro ci hci
    have hu : ci.userId = u := by
      have := (List.mem_filter.mp hci).2
      simpa using this
    simp [cartKey, hu, Function.comp]
  rw [hcongr] at hnd2
  exact hnd2.of_map _

/-!  ## C5: state machine legality  -/

/-- C5 counterexample: the claim says `canTransition(CANCELLED, s)` is
false for every status `s`, but the code's
`allowedTransitions.includes(newStatus) || currentStatus === newStatus`
makes the reflexive pair CANCELLED → CANCELLED true. -/
theorem c5_counterexample : canTransition .cancelled .cancelled = true := by decide

/-- C5 (amended): `canTransition(from, to)` is true exactly for the
eight directed edges PENDING→CONFIRMED, PENDING→CANCELLED,
CONFIRMED→PROCESSING, CONFIRMED→CANCELLED, PROCESSING→SHIPPED,
PROCESSING→CANCELLED, SHIPPED→DELIVERED, DELIVERED→RETURNED, plus
every reflexive pair `from = to`; in particular
`canTransition(PENDING, CONFIRMED)` is true,
`canTransition(PENDING, DELIVERED)` is false, and from CANCELLED (as
from REFUNDED and RETURNED) only the self-loop is accepted. -/
theorem c5_state_machine_legality (a b : OrderStatus) :
    canTransition a b = true ↔
      ((a = .pending ∧ b = .confirmed) ∨ (a = .pending ∧ b = .cancelled)
        ∨ (a = .confirmed ∧ b = .processing) ∨ (a = .confirmed ∧ b = .cancelled)
        ∨ (a = .processing ∧ b = .shipped) ∨ (a = .processing ∧ b = .cancelled)
        ∨ (a = .shipped ∧ b = .delivered) ∨ (a = .delivered ∧ b = .returned)
        ∨ a = b) := by
  cases a <;> cases b <;> decide

/-!  ## C2: pricing computation  -/

/-- C2 (code bug): on a checkout whose subtotal meets the free-shipping
threshold, the persisted order carries `shippingCost = 0` but its
`total` still includes the flat shipping cost of 10: line 144 of
orders.service.ts adds `shippingCost` instead of `finalShippingCost`.
With subtotal 100, tax rate 0.08, flat shipping 10, threshold 100 and
discount 0 the code persists total = 118.00 where the claim (and the
order's own fields) require round2(100 + 8 + 0 − 0) = 108.00. -/
theorem c2_total_uses_flat_shipping :
    (OrdersService.create {} 1 {} false stateA).1 = .ok orderA
      ∧ orderA.subtotal = 100 ∧ orderA.tax = 8 ∧ orderA.shippingCost = 0
      ∧ orderA.discount = 0 ∧ orderA.total = 118
      ∧ round2 (orderA.subtotal + orderA.tax + orderA.shippingCost - orderA.discount) = 108
      ∧ orderA.total ≠
          round2 (orderA.subtotal + orderA.tax + orderA.shippingCost - orderA.discount) := by
  decide

/-!  ## C7: coupon failure aborting checkout  -/

/-- C7 (code bug): checkout with a coupon code that matches no coupon
at all still succeeds and persists the order with `discount = 0`:
`OrdersService.create` calls its private `applyCoupon`, a TODO stub
that returns 0 for every code and can never fail, so a bad coupon
silently proceeds without discount. -/
theorem c7_bad_coupon_checkout_succeeds :
    stateA.coupons = []
      ∧ (OrdersService.create {} 1 { couponCode := some "NOSUCH" } false stateA).1 = .ok orderA
      ∧ orderA.discount = 0 := by
  decide

/-!  ## C9: coupon usage accounting  -/

/-- C9 (code bug): a successful checkout that supplied the code of an
existing active coupon leaves that coupon's `usedCount` unchanged at
3 — `CouponsService.incrementUsage` is never invoked from the
checkout path, so `usedCount` is not incremented when a checkout that
used the coupon succeeds. -/
theorem c9_checkout_does_not_increment_usage :
    (OrdersService.create {} 1 { couponCode := some "SAVE10" } false stateS).1 = .ok orderA
      ∧ (OrdersService.create {} 1 { couponCode := some "SAVE10" } false stateS).2.coupons
          = [couponS]
      ∧ couponS.usedCount = 3 := by
  decide

/-!  ## C8: unit price selection  -/

/-- C8 counterexample: for a product with list price 100 and sale
price 80 and no variant, checkout freezes `unitPrice = 100`: the code
computes `cartItem.variant?.price ?? cartItem.product.price` and never
reads `salePrice`, so the claim's sale-price precedence is false. -/
theorem c8_counterexample :
    prodSale.salePrice = some 80
      ∧ (OrdersService.create {} 1 {} false stateSale).2.orderItems = [itemSale]
      ∧ itemSale.unitPrice = 100 ∧ itemSale.unitPrice ≠ 80 := by
  decide

/-!  ## C1: checkout atomicity  -/

/-- C1: whenever `OrdersService.create` surfaces an error — empty
cart, unavailable product, insufficient stock, or a storage fault
before commit — the caller's state is fully rolled back: no order,
order item or payment row from the attempt survives, products'
and variants' stock and sold counts are unchanged, and the cart is
unchanged. -/
theorem c1_checkout_atomicity (cfg : Config) (userId : Nat) (dto : CreateOrderDto)
    (commitFault : Bool) (s : State) (e : Err)
    (h : (OrdersService.create cfg userId dto commitFault s).1 = .error e) :
    (OrdersService.create cfg userId dto commitFault s).2 = s
      ∧ (OrdersService.create cfg userId dto commitFault s).2.orders = s.orders
      ∧ (OrdersService.create cfg userId dto commitFault s).2.orderItems = s.orderItems
      ∧ (OrdersService.create cfg userId dto commitFault s).2.payments = s.payments
      ∧ (OrdersService.create cfg userId dto commitFault s).2.cartItems = s.cartItems
      ∧ (OrdersService.create cfg userId dto commitFault s).2.products = s.products
      ∧ (OrdersService.create cfg userId dto commitFault s).2.variants = s.variants := by
  unfold OrdersService.create at h ⊢
  cases hr : createRun cfg userId dto commitFault s with
  | error e2 => simp [hr]
  | ok p => rw [hr] at h; simp at h

/-- C1 witness: checkout against an empty cart errors with
`cartEmpty` and leaves the store untouched. -/
theorem c1_witness :
    (OrdersService.create {} 1 {} false stateEmpty).1 = .error .cartEmpty
      ∧ (OrdersService.create {} 1 {} false stateEmpty).2 = stateEmpty :=
  ⟨by decide, (c1_checkout_atomicity {} 1 {} false stateEmpty .cartEmpty (by decide)).1⟩

/-!  ## C6: same-state transition  -/

/-- C6 counterexample: a same-state transition of a SHIPPED order
succeeds, but re-stamps `shippedAt` with the current time (9),
overwriting the recorded instant 5 — the claim's "does not alter the
shippedAt … timestamps" is false. -/
theorem c6_counterexample :
    orderShipped.status = .shipped
      ∧ (OrdersService.updateStatus 9 1 .shipped none stateShipped).1
          = .ok { orderShipped with shippedAt := some 9 }
      ∧ orderShipped.shippedAt = some 5
      ∧ (some 9 : Option Nat) ≠ some 5 := by
  decide

/-- C6 (amended): a transition to the order's current status always
succeeds as a status no-op and never touches `cancelledAt`; however
`shippedAt` is re-stamped to the current time when that status is
SHIPPED, and `deliveredAt` when it is DELIVERED — for every other
status the timestamps are unchanged. -/
theorem c6_same_state_transition (now orderId : Nat) (tn : Option String)
    (s : State) (order : Order) (h : s.findOrder orderId none = some order) :
    ∃ o', (OrdersService.updateStatus now orderId order.status tn s).1 = .ok o'
      ∧ o'.status = order.status
      ∧ o'.cancelledAt = order.cancelledAt
      ∧ o'.shippedAt = (if order.status = .shipped then some now else order.shippedAt)
      ∧ o'.deliveredAt = (if order.status = .delivered then some now else order.deliveredAt) := by
  simp only [OrdersService.updateStatus, h, ne_eq, not_true_eq_false, and_false, if_false]
  cases tn <;>
    by_cases h1 : order.status = .shipped <;>
    by_cases h2 : order.status = .delivered <;>
    simp [h1, h2]

/-- C6 witness: the amended statement instantiated on the SHIPPED
fixture. -/
theorem c6_witness :
    stateShipped.findOrder 1 none = some orderShipped
      ∧ ∃ o', (OrdersService.updateStatus 9 1 orderShipped.status none stateShipped).1 = .ok o'
          ∧ o'.status = orderShipped.status
          ∧ o'.cancelledAt = orderShipped.cancelledAt
          ∧ o'.shippedAt
              = (if orderShipped.status = .shipped then some 9 else orderShipped.shippedAt)
          ∧ o'.deliveredAt
              = (if orderShipped.status = .delivered then some 9 else orderShipped.deliveredAt) :=
  ⟨by decide, c6_same_state_transition 9 1 none stateShipped orderShipped (by decide)⟩


/-!  ## C4: cancellation reversal  -/

/-- C4: for an order of the user in status PENDING or CONFIRMED,
`cancel` succeeds and returns the stored order marked CANCELLED with
`cancelledAt` stamped and the reason recorded; every stock counter
grows by the total quantity of the order's items targeting it (the
variant counter when the item has a loaded variant, else the product
counter); every product's sold count shrinks by its items' total
quantity; and if the order has a COMPLETED payment, a payment of the
order is marked REFUNDED with the refund time.  For an order in any
other status, `cancel` fails with the not-cancellable error and the
store is unchanged. -/
theorem c4_cancellation_reversal (now userId orderId : Nat) (reason : Option String)
    (s : State) (order : Order)
    (hfound : s.findOrder orderId (some userId) = some order)
    (hexist : ∀ it ∈ s.orderItemsOf orderId, (s.findProduct it.productId).isSome = true) :
    ((order.status = .pending ∨ order.status = .confirmed) →
      (∃ o', (OrdersService.cancel now userId orderId reason s).1 = .ok o'
        ∧ o'.id = order.id ∧ o'.status = .cancelled ∧ o'.cancelledAt = some now
        ∧ o'.cancellationReason = some (reason.getD "")
        ∧ o' ∈ (OrdersService.cancel now userId orderId reason s).2.orders)
      ∧ (∀ k, (OrdersService.cancel now userId orderId reason s).2.stockOf k
            = s.stockOf k + restoredQty s (s.orderItemsOf orderId) k)
      ∧ (∀ pid, (OrdersService.cancel now userId orderId reason s).2.soldOf pid
            = s.soldOf pid - soldQty (s.orderItemsOf orderId) pid)
      ∧ ((∃ p ∈ s.payments, p.orderId = orderId ∧ p.paymentStatus = .completed) →
          ∃ p' ∈ (OrdersService.cancel now userId orderId reason s).2.payments,
            p'.orderId = orderId ∧ p'.paymentStatus = .refunded ∧ p'.refundedAt = some now))
    ∧ (order.status ≠ .pending → order.status ≠ .confirmed →
        OrdersService.cancel now userId orderId reason s = (.error .orderNotCancellable, s)) := by
  unfold OrdersService.cancel
  rw [hfound]
  dsimp only
  constructor
  · intro hstat
    have hguard : ¬(order.status ≠ .pending ∧ order.status ≠ .confirmed) := by
      intro hc
      cases hstat with
      | inl h => exact hc.1 h
      | inr h => exact hc.2 h
    rw [if_neg hguard]
    have hshape := restoreLoop_sameShape s (s.orderItemsOf orderId) s
    have hordmem : order ∈ s.orders := List.mem_of_find?_eq_some hfound
    have hrp_orders : ∀ (st : State),
        (refundPayments now reason orderId st).orders = st.orders := fun st => rfl
    have hrp_stock : ∀ (st : State) (k : StockKey),
        (refundPayments now reason orderId st).stockOf k = st.stockOf k := by
      intro st k
      cases k <;> rfl
    have hrp_sold : ∀ (st : State) (pid : Nat),
        (refundPayments now reason orderId st).soldOf pid = st.soldOf pid := fun st pid => rfl
    have hso_stock : ∀ (st : State) (o : Order) (k : StockKey),
        (st.saveOrder o).stockOf k = st.stockOf k := by
      intro st o k
      cases k <;> rfl
    refine ⟨⟨_, rfl, rfl, rfl, rfl, rfl, ?_⟩, ?_, ?_, ?_⟩
    · rw [hrp_orders]
      show _ ∈ (restoreLoop s (s.orderItemsOf orderId) s).orders.map _
      rw [hshape.2.1]
      refine List.mem_map.mpr ⟨order, hordmem, ?_⟩
      simp
    · intro k
      have hex : ∀ it ∈ s.orderItemsOf orderId,
          s.rowExists (lineKey s it.productId it.variantId) = true := by
        intro it hit
        exact rowExists_lineKey s it.productId it.variantId (hexist it hit)
      rw [hrp_stock, hso_stock]
      exact restoreLoop_stockOf s (s.orderItemsOf orderId) s hex k
    · intro pid
      rw [hrp_sold]
      have hss : ∀ (st : State) (o : Order) (pid : Nat),
          (st.saveOrder o).soldOf pid = st.soldOf pid := fun st o pid => rfl
      rw [hss]
      exact restoreLoop_soldOf s (s.orderItemsOf orderId) s hexist pid
    · intro hpay
      have hpays : ((restoreLoop s (s.orderItemsOf orderId) s).saveOrder
          { order with
            status := .cancelled
            cancelledAt := some now
            cancellationReason := some (reason.getD "") }).payments = s.payments := by
        show (restoreLoop s (s.orderItemsOf orderId) s).payments = s.payments
        rw [hshape.2.2.2.1]
      show ∃ p' ∈ markFirstCompletedRefunded now reason orderId _, _
      rw [hpays]
      exact markFirst_refund now reason orderId s.payments hpay
  · intro h1 h2
    rw [if_pos ⟨h1, h2⟩]

/-- C4 witness: cancelling the PENDING fixture order restores product
5's stock by +3, reverses its sold count by 3, and refunds the
COMPLETED payment. -/
theorem c4_witness :
    (stateP.findOrder 9 (some 2) = some orderP)
    ∧ (∀ it ∈ stateP.orderItemsOf 9, (stateP.findProduct it.productId).isSome = true)
    ∧ (((orderP.status = .pending ∨ orderP.status = .confirmed) →
        (∃ o', (OrdersService.cancel 11 2 9 (some "no need") stateP).1 = .ok o'
          ∧ o'.id = orderP.id ∧ o'.status = .cancelled ∧ o'.cancelledAt = some 11
          ∧ o'.cancellationReason = some ((some "no need").getD "")
          ∧ o' ∈ (OrdersService.cancel 11 2 9 (some "no need") stateP).2.orders)
        ∧ (∀ k, (OrdersService.cancel 11 2 9 (some "no need") stateP).2.stockOf k
              = stateP.stockOf k + restoredQty stateP (stateP.orderItemsOf 9) k)
        ∧ (∀ pid, (OrdersService.cancel 11 2 9 (some "no need") stateP).2.soldOf pid
              = stateP.soldOf pid - soldQty (stateP.orderItemsOf 9) pid)
        ∧ ((∃ p ∈ stateP.payments, p.orderId = 9 ∧ p.paymentStatus = .completed) →
            ∃ p' ∈ (OrdersService.cancel 11 2 9 (some "no need") stateP).2.payments,
              p'.orderId = 9 ∧ p'.paymentStatus = .refunded ∧ p'.refundedAt = some 11))
      ∧ (orderP.status ≠ .pending → orderP.status ≠ .confirmed →
          OrdersService.cancel 11 2 9 (some "no need") stateP
            = (.error .orderNotCancellable, stateP))) :=
  ⟨by decide, by decide,
    c4_cancellation_reversal 11 2 9 (some "no need") stateP orderP (by decide) (by decide)⟩


/-- Projection of the commit writes on order items. -/
theorem commitState_orderItems (u : Nat) (s1 : State) (o : Order) (its : List OrderItem)
    (pay : Payment) : (commitState u s1 o its pay).orderItems = s1.orderItems ++ its := rfl

/-- C8 (amended): every order item a successful checkout persists
freezes the unit price selected as the variant's price when the cart
line has a (loaded) variant, and the product's price otherwise; the
product's sale price is never consulted. -/
theorem c8_unit_price_selection (cfg : Config) (userId : Nat) (dto : CreateOrderDto)
    (commitFault : Bool) (s : State) (o : Order)
    (h : (OrdersService.create cfg userId dto commitFault s).1 = .ok o) :
    ∃ newItems, (OrdersService.create cfg userId dto commitFault s).2.orderItems
        = s.orderItems ++ newItems
      ∧ ∀ it ∈ newItems, ∃ ci ∈ s.cartItems, ci.userId = userId
          ∧ it.productId = ci.productId ∧ it.variantId = ci.variantId
          ∧ (match s.cartVariant ci with
             | some v => it.unitPrice = v.price
             | none => ∃ p, s.findProduct ci.productId = some p ∧ it.unitPrice = p.price) := by
  unfold OrdersService.create at h ⊢
  cases hr : createRun cfg userId dto commitFault s with
  | error e => rw [hr] at h; simp at h
  | ok pr =>
    obtain ⟨s1, ord⟩ := pr
    rw [hr] at h
    dsimp only at h ⊢
    unfold createRun at hr
    by_cases hemp : (s.cartItems.filter (fun ci => ci.userId == userId)).isEmpty
    · rw [if_pos hemp] at hr; cases hr
    · rw [if_neg hemp] at hr
      cases hloop : checkoutLoop s (s.cartItems.filter (fun ci => ci.userId == userId)) s with
      | error e => rw [hloop] at hr; cases hr
      | ok trip =>
        obtain ⟨st1, drafts, subt⟩ := trip
        rw [hloop] at hr
        dsimp only at hr
        by_cases hcf : commitFault
        · rw [if_pos hcf] at hr; cases hr
        · rw [if_neg hcf] at hr
          simp only [Except.ok.injEq, Prod.mk.injEq] at hr
          obtain ⟨hs1, -⟩ := hr
          subst hs1
          have hshape := checkoutLoop_sameShape s _ _ _ _ _ hloop
          refine ⟨drafts.map (fun d => { d with orderId := st1.nextOrderId }), ?_, ?_⟩
          · rw [commitState_orderItems, hshape.2.2.1]
          · intro it hit
            obtain ⟨d, hd, he⟩ := List.mem_map.mp hit
            obtain ⟨ci, hci, p1, p2, p3⟩ := checkoutLoop_items s _ _ _ _ _ hloop d hd
            obtain ⟨hcimem, hciu⟩ := List.mem_filter.mp hci
            refine ⟨ci, hcimem, by simpa using hciu, ?_, ?_, ?_⟩
            · rw [← he]; exact p1
            · rw [← he]; exact p2
            · rw [← he]; exact p3

/-- C8 witness: the amended price-selection statement instantiated on
the on-sale fixture (whose one line freezes the list price 100). -/
theorem c8_witness :
    ((OrdersService.create {} 1 {} false stateSale).1 = .ok orderSale)
    ∧ (∃ newItems, (OrdersService.create {} 1 {} false stateSale).2.orderItems
          = stateSale.orderItems ++ newItems
        ∧ ∀ it ∈ newItems, ∃ ci ∈ stateSale.cartItems, ci.userId = 1
            ∧ it.productId = ci.productId ∧ it.variantId = ci.variantId
            ∧ (match stateSale.cartVariant ci with
               | some v => it.unitPrice = v.price
               | none => ∃ p, stateSale.findProduct ci.productId = some p
                   ∧ it.unitPrice = p.price)) :=
  ⟨by decide, c8_unit_price_selection {} 1 {} false stateSale orderSale (by decide)⟩


/-!  ## C3: stock non-negativity across operation sequences  -/

/-- Projections of the commit writes. -/
theorem commitState_products (u : Nat) (s1 : State) (o : Order) (its : List OrderItem)
    (pay : Payment) : (commitState u s1 o its pay).products = s1.products := rfl

/-- Projections of the commit writes. -/
theorem commitState_variants (u : Nat) (s1 : State) (o : Order) (its : List OrderItem)
    (pay : Payment) : (commitState u s1 o its pay).variants = s1.variants := rfl

/-- Projections of the commit writes. -/
theorem commitState_cartItems (u : Nat) (s1 : State) (o : Order) (its : List OrderItem)
    (pay : Payment) : (commitState u s1 o its pay).cartItems
      = s1.cartItems.filter (fun ci => !(ci.userId == u)) := rfl

/-- Projections of the order save. -/
theorem saveOrder_products (st : State) (o : Order) : (st.saveOrder o).products = st.products :=
  rfl

/-- Projections of the order save. -/
theorem saveOrder_variants (st : State) (o : Order) : (st.saveOrder o).variants = st.variants :=
  rfl

/-- Projections of the order save. -/
theorem saveOrder_cartItems (st : State) (o : Order) :
    (st.saveOrder o).cartItems = st.cartItems := rfl

/-- Projections of the refund marking. -/
theorem refundPayments_products (now : Nat) (r : Option String) (oid : Nat) (st : State) :
    (refundPayments now r oid st).products = st.products := rfl

/-- Projections of the refund marking. -/
theorem refundPayments_variants (now : Nat) (r : Option String) (oid : Nat) (st : State) :
    (refundPayments now r oid st).variants = st.variants := rfl

/-- Projections of the refund marking. -/
theorem refundPayments_cartItems (now : Nat) (r : Option String) (oid : Nat) (st : State) :
    (refundPayments now r oid st).cartItems = st.cartItems := rfl

/-- A checkout attempt preserves database well-formedness. -/
theorem wf_create (cfg : Config) (u : Nat) (dto : CreateOrderDto) (f : Bool) (s : State)
    (hwf : WellFormed s) : WellFormed ((OrdersService.create cfg u dto f s).2) := by
  unfold OrdersService.create
  cases hr : createRun cfg u dto f s with
  | error e => exact hwf
  | ok pr =>
    obtain ⟨s1, ord⟩ := pr
    dsimp only
    unfold createRun at hr
    by_cases hemp : (s.cartItems.filter (fun ci => ci.userId == u)).isEmpty
    · rw [if_pos hemp] at hr; cases hr
    · rw [if_neg hemp] at hr
      cases hloop : checkoutLoop s (s.cartItems.filter (fun ci => ci.userId == u)) s with
      | error e => rw [hloop] at hr; cases hr
      | ok trip =>
        obtain ⟨st1, drafts, subt⟩ := trip
        rw [hloop] at hr
        dsimp only at hr
        by_cases hcf : f
        · rw [if_pos hcf] at hr; cases hr
        · rw [if_neg hcf] at hr
          simp only [Except.ok.injEq, Prod.mk.injEq] at hr
          obtain ⟨hs1, -⟩ := hr
          subst hs1
          obtain ⟨hnn, hpn, hvn, hck⟩ := hwf
          have hshape := checkoutLoop_sameShape s _ _ _ _ _ hloop
          have hpmap := hshape.2.2.2.2.2.2.1
          have hvmap := hshape.2.2.2.2.2.2.2
          have hnn1 : StocksNonneg st1 :=
            checkoutLoop_nonneg s _ s st1 drafts subt hloop hnn hpn hvn
              (fun ci _ => rfl) (userLines_keys_nodup s u hck)
          refine ⟨hnn1, ?_, ?_, ?_⟩
          · rw [commitState_products, hpmap]
            exact hpn
          · rw [commitState_variants, hvmap]
            exact hvn
          · rw [commitState_cartItems, cartKeyF_commitState, hshape.1,
              funext (cartKey_eq_of_variants hvmap)]
            exact hck.sublist ((List.filter_sublist s.cartItems).map (cartKey s))

/-- A cancellation attempt preserves database well-formedness. -/
theorem wf_cancel (now u oid : Nat) (r : Option String) (s : State) (hwf : WellFormed s) :
    WellFormed ((OrdersService.cancel now u oid r s).2) := by
  unfold OrdersService.cancel
  cases hfo : s.findOrder oid (some u) with
  | none => exact hwf
  | some order =>
    dsimp only
    by_cases hg : order.status ≠ .pending ∧ order.status ≠ .confirmed
    · rw [if_pos hg]; exact hwf
    · rw [if_neg hg]
      obtain ⟨hnn, hpn, hvn, hck⟩ := hwf
      have hshape := restoreLoop_sameShape s (s.orderItemsOf oid) s
      have hpmap := hshape.2.2.2.2.2.2.1
      have hvmap := hshape.2.2.2.2.2.2.2
      refine ⟨restoreLoop_nonneg s _ s hnn, ?_, ?_, ?_⟩
      · rw [refundPayments_products, saveOrder_products, hpmap]
        exact hpn
      · rw [refundPayments_variants, saveOrder_variants, hvmap]
        exact hvn
      · rw [refundPayments_cartItems, saveOrder_cartItems, hshape.1,
          cartKeyF_refundPayments, cartKeyF_saveOrder,
          funext (cartKey_eq_of_variants hvmap)]
        exact hck

/-- Any single operation preserves database well-formedness. -/
theorem wf_applyOp (cfg : Config) (s : State) (op : Op) (hwf : WellFormed s) :
    WellFormed (applyOp cfg s op) := by
  cases op with
  | checkout u dto f => exact wf_create cfg u dto f s hwf
  | cancelOrder now u oid r => exact wf_cancel now u oid r s hwf

/-- Any operation sequence preserves database well-formedness. -/
theorem wf_runOps (cfg : Config) :
    ∀ (ops : List Op) (s : State), WellFormed s → WellFormed (runOps cfg ops s)
  | [], _, hwf => hwf
  | op :: rest, s, hwf => wf_runOps cfg rest _ (wf_applyOp cfg s op hwf)

/-- C3: starting from a well-formed store (non-negative stocks,
unique product/variant ids, and per-user cart lines with distinct
stock counters), every sequence of checkout and cancellation
operations keeps every product's and variant's stock non-negative;
a checkout line whose quantity exceeds the available stock fails the
loop with the insufficient-stock error; and every failed checkout
leaves the store exactly as it found it. -/
theorem c3_stock_nonnegativity (cfg : Config) (ops : List Op) (s : State)
    (hwf : WellFormed s) :
    (StocksNonneg (runOps cfg ops s))
    ∧ (∀ (s0 st : State) (ci : CartItem) (rest : List CartItem) (product : Product),
        s0.findProduct ci.productId = some product → product.status = .active →
        ((s0.cartVariant ci).map (·.stock)).getD product.stock < (ci.quantity : Int) →
        checkoutLoop s0 (ci :: rest) st
          = .error (.insufficientStock
              (((s0.cartVariant ci).map (·.stock)).getD product.stock)))
    ∧ (∀ (userId : Nat) (dto : CreateOrderDto) (fault : Bool) (e : Err),
        (OrdersService.create cfg userId dto fault s).1 = .error e →
        (OrdersService.create cfg userId dto fault s).2 = s) := by
  refine ⟨(wf_runOps cfg ops s hwf).1, ?_, ?_⟩
  · intro s0 st ci rest product hp hact hlt
    exact checkoutLoop_head_error s0 ci rest st _
      (lineCheck_insufficient s0 ci product hp hact hlt)
  · intro userId dto fault e h
    unfold OrdersService.create at h ⊢
    cases hr : createRun cfg userId dto fault s with
    | error e2 => rfl
    | ok pr => rw [hr] at h; simp at h

/-- C3 witness: one checkout over the well-formed fixture store keeps
all stocks non-negative. -/
theorem c3_witness :
    WellFormed stateA
    ∧ ((StocksNonneg (runOps {} [Op.checkout 1 {} false] stateA))
      ∧ (∀ (s0 st : State) (ci : CartItem) (rest : List CartItem) (product : Product),
          s0.findProduct ci.productId = some product → product.status = .active →
          ((s0.cartVariant ci).map (·.stock)).getD product.stock < (ci.quantity : Int) →
          checkoutLoop s0 (ci :: rest) st
            = .error (.insufficientStock
                (((s0.cartVariant ci).map (·.stock)).getD product.stock)))
      ∧ (∀ (userId : Nat) (dto : CreateOrderDto) (fault : Bool) (e : Err),
          (OrdersService.create {} userId dto fault stateA).1 = .error e →
          (OrdersService.create {} userId dto fault stateA).2 = stateA)) :=
  ⟨by unfold WellFormed StocksNonneg; decide,
   c3_stock_nonnegativity {} [Op.checkout 1 {} false] stateA
     (by unfold WellFormed StocksNonneg; decide)⟩

/-!  ## C10: cart line merging  -/

/-- When `findOne` locates a cart line, saving the updated quantity
rewrites exactly that line in place. -/
theorem updateFirst_split (uid pid : Nat) (vid : Option Nat) (q : Nat) :
    ∀ (l : List CartItem) (x : CartItem),
      l.find? (fun ci => ci.userId == uid && ci.productId == pid && ci.variantId == vid)
        = some x →
      ∃ l1 l2, l = l1 ++ x :: l2
        ∧ updateFirstCartLine uid pid vid q l = l1 ++ { x with quantity := q } :: l2
  | [], x, h => by simp [List.find?] at h
  | ci :: rest, x, h => by
    by_cases hc : (ci.userId == uid && ci.productId == pid && ci.variantId == vid) = true
    · simp only [List.find?_cons, hc] at h
      cases h
      exact ⟨[], rest, rfl, by simp [updateFirstCartLine, hc]⟩
    · rw [Bool.not_eq_true] at hc
      simp only [List.find?_cons, hc] at h
      obtain ⟨l1, l2, he, hu⟩ := updateFirst_split uid pid vid q rest x h
      exact ⟨ci :: l1, l2, by simp [he], by simp [updateFirstCartLine, hc, hu]⟩

/-- Saving a merged quantity never changes the number of cart lines. -/
theorem updateFirst_length (uid pid : Nat) (vid : Option Nat) (q : Nat) :
    ∀ (l : List CartItem), (updateFirstCartLine uid pid vid q l).length = l.length
  | [] => rfl
  | ci :: rest => by
    by_cases hc : (ci.userId == uid && ci.productId == pid && ci.variantId == vid) = true <;>
      simp [updateFirstCartLine, hc, updateFirst_length uid pid vid q rest]

/-- C10: when the user's cart already holds a line for the requested
`(productId, variantId)` pair, `addToCart` never creates a second
line (the line count is preserved in every outcome, and every failure
leaves the whole store unchanged); on success the existing line's
quantity grows by the requested quantity, in place; and when the
combined quantity exceeds the available stock the call fails with the
insufficient-stock error and the store is unchanged. -/
theorem c10_cart_line_merging (userId : Nat) (dto : AddToCartDto) (s : State)
    (existing : CartItem)
    (hfind : s.cartItems.find? (fun ci => ci.userId == userId && ci.productId == dto.productId
        && ci.variantId == dto.variantId) = some existing) :
    ((CartService.addToCart userId dto s).2.cartItems.length = s.cartItems.length)
    ∧ (∀ e, (CartService.addToCart userId dto s).1 = .error e
        → (CartService.addToCart userId dto s).2 = s)
    ∧ (∀ ci', (CartService.addToCart userId dto s).1 = .ok ci'
        → ci'.quantity = existing.quantity + dto.quantity
          ∧ ∃ l1 l2, s.cartItems = l1 ++ existing :: l2
            ∧ (CartService.addToCart userId dto s).2.cartItems
                = l1 ++ { existing with quantity := existing.quantity + dto.quantity } :: l2)
    ∧ (∀ product variant, s.findProduct dto.productId = some product
        → product.status = .active
        → CartService.checkVariant s dto = .ok variant
        → ((variant.map (·.stock)).getD product.stock)
            < ((existing.quantity + dto.quantity : Nat) : Int)
        → CartService.addToCart userId dto s
            = (.error (.insufficientStock ((variant.map (·.stock)).getD product.stock)), s)) := by
  unfold CartService.addToCart
  cases hp : s.findProduct dto.productId with
  | none =>
    dsimp only
    exact ⟨rfl, fun e _ => rfl, fun ci' hok => by simp at hok,
      fun product variant hp2 => by cases hp2⟩
  | some product =>
    dsimp only
    by_cases hact : product.status = .active
    · rw [if_neg (fun hc => hc hact)]
      cases hcv : CartService.checkVariant s dto with
      | error e0 =>
        dsimp only
        exact ⟨rfl, fun e _ => rfl, fun ci' hok => by simp at hok,
          fun product2 variant hp2 hact2 hcv2 => by cases hcv2⟩
      | ok variant =>
        dsimp only
        by_cases hs1 : ((variant.map (·.stock)).getD product.stock) < (dto.quantity : Int)
        · rw [if_pos hs1]
          refine ⟨rfl, fun e _ => rfl, fun ci' hok => by simp at hok, ?_⟩
          intro product2 variant2 hp2 hact2 hcv2 hlt
          cases hp2; cases hcv2
          rfl
        · rw [if_neg hs1]
          rw [hfind]
          dsimp only
          by_cases hs2 : ((variant.map (·.stock)).getD product.stock)
              < ((existing.quantity + dto.quantity : Nat) : Int)
          · rw [if_pos hs2]
            refine ⟨rfl, fun e _ => rfl, fun ci' hok => by simp at hok, ?_⟩
            intro product2 variant2 hp2 hact2 hcv2 hlt
            cases hp2; cases hcv2
            rfl
          · rw [if_neg hs2]
            obtain ⟨l1, l2, he, hu⟩ :=
              updateFirst_split userId dto.productId dto.variantId
                (existing.quantity + dto.quantity) s.cartItems existing hfind
            refine ⟨?_, fun e he2 => by simp at he2, ?_, ?_⟩
            · simp [updateFirst_length]
            · intro ci' hok
              simp only [Except.ok.injEq] at hok
              refine ⟨?_, l1, l2, he, ?_⟩
              · rw [← hok]
              · simpa using hu
            · intro product2 variant2 hp2 hact2 hcv2 hlt
              cases hp2; cases hcv2
              exact absurd hlt hs2
    · rw [if_pos (fun hc => hact hc)]
      exact ⟨rfl, fun e _ => rfl, fun ci' hok => by simp at hok,
        fun product2 variant hp2 hact2 => by cases hp2; exact absurd hact2 hact⟩

/-- C10 witness: merging three more units of `prodA` into the existing
two-unit line of `stateA`. -/
theorem c10_witness :
    (stateA.cartItems.find? (fun ci => ci.userId == 1 && ci.productId == dtoW.productId
        && ci.variantId == dtoW.variantId) = some lineW)
    ∧ (((CartService.addToCart 1 dtoW stateA).2.cartItems.length = stateA.cartItems.length)
      ∧ (∀ e, (CartService.addToCart 1 dtoW stateA).1 = .error e
          → (CartService.addToCart 1 dtoW stateA).2 = stateA)
      ∧ (∀ ci', (CartService.addToCart 1 dtoW stateA).1 = .ok ci'
          → ci'.quantity = lineW.quantity + dtoW.quantity
            ∧ ∃ l1 l2, stateA.cartItems = l1 ++ lineW :: l2
              ∧ (CartService.addToCart 1 dtoW stateA).2.cartItems
                  = l1 ++ { lineW with quantity := lineW.quantity + dtoW.quantity } :: l2)
      ∧ (∀ product variant, stateA.findProduct dtoW.productId = some product
          → product.status = .active
          → CartService.checkVariant stateA dtoW = .ok variant
          → ((variant.map (·.stock)).getD product.stock)
              < ((lineW.quantity + dtoW.quantity : Nat) : Int)
          → CartService.addToCart 1 dtoW stateA
              = (.error (.insufficientStock ((variant.map (·.stock)).getD product.stock)),
                 stateA))) :=
  ⟨by decide, c10_cart_line_merging 1 dtoW stateA lineW (by decide)⟩

end EvaluationSection

end Ecom
